import Mathlib

/-!
Verification of stcgal (STC MCU ISP flash tool) against its
natural-language specification.

The Python sources are shallowly embedded:
* Python byte strings and `bytearray`s become `List ℕ` of byte values;
* Python strings become `List ℕ` of Unicode code points
  (`pyStr` converts a Lean string literal);
* Python machine integers are unbounded, so `ℕ`/`ℤ` model them directly,
  with `%`/`&&&` where the source masks;
* Python floats are modelled with `ℚ`; `round` (banker's rounding) is
  `roundHalfEven`;
* fallible code returns `Option`/`Except`.
-/

/-- Model of the Python values that flow through stcgal's option layer:
`None`, `bool`, `int`, and `str` (as a list of code points). -/
inductive PyVal where
  | none : PyVal
  | bool : Bool → PyVal
  | int : ℤ → PyVal
  | str : List ℕ → PyVal
deriving DecidableEq, Repr

/-- A Lean string literal as a Python string value (list of code points). -/
def pyStr (s : String) : List ℕ := s.data.map Char.toNat

/-- Python truthiness for the values of `PyVal` (`if not val: ...`). -/
def pyTruthy : PyVal → Bool
  | .none => false
  | .bool b => b
  | .int n => decide (n ≠ 0)
  | .str s => decide (s ≠ [])

/-- `str.lower` on a single code point, for the ASCII letters
(the only case `Utils.to_bool` distinguishes). -/
def pyLower (c : ℕ) : ℕ := if 65 ≤ c ∧ c ≤ 90 then c + 32 else c

namespace Utils

/-- Embedding of `stcgal.utils.Utils.to_bool`:
```
if not val: return False
if isinstance(val, bool): return val
elif isinstance(val, int): return bool(val)
return True if val[0].lower() == "t" or val[0] == "1" else False
```
`val[0]` on a string reaching the last line is never empty (empty strings
are falsy), so `headD` is safe. Code point 116 is `t`, 49 is `1`. -/
def to_bool (val : PyVal) : Bool :=
  if pyTruthy val = false then false
  else match val with
    | .bool b => b
    | .int n => decide (n ≠ 0)
    | .str s => decide (pyLower (s.headD 0) = 116 ∨ s.headD 0 = 49)
    | .none => false

/-- Embedding of `stcgal.utils.Utils.to_int`, i.e. `int(val, 0)` wrapped so
that failure is a `ValueError` (`Option.none` here).  Only plain decimal
numerals (optionally signed) are modelled; base-prefixed (`0x…`) and
underscore-grouped literals, which no legal option value uses, are left out.
A non-string argument makes `int(val, 0)` raise `TypeError`, which
`Utils.to_int` turns into `ValueError`, hence `none`. -/
def to_int (val : PyVal) : Option ℤ :=
  match val with
  | .str s =>
    let digits : List ℕ → Option ℕ := fun ds =>
      if ds = [] then Option.none
      else if ds.all (fun d => 48 ≤ d ∧ d ≤ 57) then
        Option.some (ds.foldl (fun acc d => acc * 10 + (d - 48)) 0)
      else Option.none
    match s with
    | 45 :: rest => (digits rest).map (fun n => -(n : ℤ))
    | _ => (digits s).map (fun n => (n : ℤ))
  | _ => Option.none

end Utils

/-- Python's `round` on a rational: round half to even (banker's rounding). -/
def roundHalfEven (q : ℚ) : ℤ :=
  if Int.fract q < 1/2 then ⌊q⌋
  else if 1/2 < Int.fract q then ⌊q⌋ + 1
  else if ⌊q⌋ % 2 = 0 then ⌊q⌋ else ⌊q⌋ + 1

theorem abs_sub_roundHalfEven_le (q : ℚ) : |q - roundHalfEven q| ≤ 1/2 := by
  have hfr : Int.fract q = q - ⌊q⌋ := Int.self_sub_floor q ▸ rfl
  have h0 : (0:ℚ) ≤ Int.fract q := Int.fract_nonneg q
  have h1 : Int.fract q < 1 := Int.fract_lt_one q
  unfold roundHalfEven
  split_ifs with hlt hgt heven
  · rw [abs_le]; constructor <;> linarith
  · rw [abs_le]; push_cast; constructor <;> linarith
  · rw [abs_le]; constructor <;> linarith
  · rw [abs_le]; push_cast; constructor <;> linarith

/-- C10: `Utils.to_bool` maps a non-empty string to `True` exactly when its
first character is `t` (116), `T` (84) or `1` (49); other strings (including
"yes", "on", "high"), the empty string, `None`, `False` and `0` map to
`False`; `True` and non-zero integers map to `True`. -/
theorem to_bool_spec :
    (∀ c cs, Utils.to_bool (.str (c :: cs)) = decide (c = 116 ∨ c = 84 ∨ c = 49)) ∧
    Utils.to_bool (.str (pyStr "yes")) = false ∧
    Utils.to_bool (.str (pyStr "on")) = false ∧
    Utils.to_bool (.str (pyStr "high")) = false ∧
    Utils.to_bool (.str []) = false ∧
    Utils.to_bool .none = false ∧
    (∀ b, Utils.to_bool (.bool b) = b) ∧
    (∀ n : ℤ, Utils.to_bool (.int n) = decide (n ≠ 0)) := by
  refine ⟨?_, by decide, by decide, by decide, by decide, by decide, ?_, ?_⟩
  · intro c cs
    simp only [Utils.to_bool, pyTruthy, pyLower, List.headD]
    norm_num
    rcases Decidable.em (65 ≤ c ∧ c ≤ 90) with h | h
    · rw [if_pos h, Bool.eq_iff_iff]; simp; omega
    · rw [if_neg h, Bool.eq_iff_iff]; simp; omega
  · intro b; cases b <;> decide
  · intro n
    rcases Decidable.em (n = 0) with h | h
    · subst h; decide
    · simp [Utils.to_bool, pyTruthy, h]

/-! ## Packet framing (protocols.py, `Stc89Protocol` / `Stc12Protocol`) -/

/-- Errors of the packet layer: `StcFramingException` variants plus the read
timeout of `read_bytes_safe`. -/
inductive FrameErr where
  | timeout | frameStart | direction | frameEnd | checksum
deriving DecidableEq, Repr

/-- Python exceptions surfacing in the embedded code paths: `TypeError`,
`ValueError`, `ZeroDivisionError`. -/
inductive PyErr where
  | typeError
  | valueError (msg : List ℕ)
  | zeroDivision
deriving DecidableEq, Repr

/-- `read_bytes_safe(num)`: take `n` bytes from the serial stream, or fail
(`SerialTimeoutException`) if fewer are available. -/
def readBytes (n : ℕ) (s : List ℕ) : Option (List ℕ × List ℕ) :=
  if n ≤ s.length then Option.some (s.take n, s.drop n) else Option.none

namespace Stc89Protocol

/-- `Stc89Protocol.write_packet`: `46 B9 6A | LEN(>H, = payload+5) | payload |
CHK(8-bit sum of bytes from direction byte on) | 16`. -/
def write_packet (data : List ℕ) : List ℕ :=
  let lenField := data.length + 5
  let packet := [0x46, 0xb9, 0x6a] ++ [lenField / 256, lenField % 256] ++ data
  packet ++ [(packet.drop 2).sum % 256, 0x16]

/-- The stream `write_packet` would emit with the MCU direction magic `0x68`
in place of the host magic `0x6a` (the checksum covering it accordingly):
this is the shape of MCU-to-host frames, the only direction `read_packet`
accepts. -/
def write_packet_mcu (data : List ℕ) : List ℕ :=
  let lenField := data.length + 5
  let packet := [0x46, 0xb9, 0x68] ++ [lenField / 256, lenField % 256] ++ data
  packet ++ [(packet.drop 2).sum % 256, 0x16]

/-- Tail of `Stc89Protocol.read_packet` after the three magic bytes: read the
length, read the remainder, verify end code and 8-bit checksum, return
`packet[5:packet_len]`. -/
def read_packet_tail (magic : List ℕ) (s : List ℕ) : Except FrameErr (List ℕ) :=
  match readBytes 2 s with
  | Option.none => .error .timeout
  | Option.some (lenBytes, s2) =>
    let packetLen := lenBytes.getD 0 0 * 256 + lenBytes.getD 1 0
    match readBytes (packetLen - 3) s2 with
    | Option.none => .error .timeout
    | Option.some (rest, _) =>
      let packet := magic ++ lenBytes ++ rest
      if packet.getD (packetLen + 1) 0 ≠ 0x16 then .error .frameEnd
      else if packet.getD packetLen 0 ≠ ((packet.drop 2).take (packetLen - 2)).sum % 256 then
        .error .checksum
      else .ok ((packet.drop 5).take (packetLen - 5))

/-- `Stc89Protocol.read_packet` over a byte stream: frame start `46 B9`
(a leading `68` is accepted alone, "liberal" status-packet quirk), direction
magic `68`, then the length-prefixed body. -/
def read_packet (stream : List ℕ) : Except FrameErr (List ℕ) :=
  match readBytes 1 stream with
  | Option.none => .error .timeout
  | Option.some (b0, s1) =>
    if b0.getD 0 0 = 0x68 then read_packet_tail [0x46, 0xb9, 0x68] s1
    else if b0.getD 0 0 ≠ 0x46 then .error .frameStart
    else match readBytes 1 s1 with
      | Option.none => .error .timeout
      | Option.some (b1, s2) =>
        if b1.getD 0 0 ≠ 0xb9 then .error .frameStart
        else match readBytes 1 s2 with
          | Option.none => .error .timeout
          | Option.some (b2, s3) =>
            if b2.getD 0 0 ≠ 0x68 then .error .direction
            else read_packet_tail [0x46, 0xb9, b2.getD 0 0] s3

end Stc89Protocol

namespace Stc12Protocol

/-- `Stc12Protocol.write_packet`: `46 B9 6A | LEN(>H, = payload+6) | payload |
CHK(16-bit big-endian sum from direction byte on) | 16`. -/
def write_packet (data : List ℕ) : List ℕ :=
  let lenField := data.length + 6
  let packet := [0x46, 0xb9, 0x6a] ++ [lenField / 256, lenField % 256] ++ data
  let csum := (packet.drop 2).sum % 65536
  packet ++ [csum / 256, csum % 256, 0x16]

/-- The stream `write_packet` would emit with the MCU direction magic `0x68`
in place of `0x6a` (checksum adjusted accordingly); the shape `read_packet`
accepts. -/
def write_packet_mcu (data : List ℕ) : List ℕ :=
  let lenField := data.length + 6
  let packet := [0x46, 0xb9, 0x68] ++ [lenField / 256, lenField % 256] ++ data
  let csum := (packet.drop 2).sum % 65536
  packet ++ [csum / 256, csum % 256, 0x16]

/-- Tail of `Stc12Protocol.read_packet` once frame start, direction and
length have been read (`pre` is `packet[0:5]`): read the remainder, verify
end code and the 16-bit big-endian checksum over `packet[2:packet_len-1]`,
return `packet[5:packet_len-1]`. -/
def read_packet_tail (pre : List ℕ) (packetLen : ℕ) (s : List ℕ) :
    Except FrameErr (List ℕ) :=
  match readBytes (packetLen - 3) s with
  | Option.none => .error .timeout
  | Option.some (rest, _) =>
    let packet := pre ++ rest
    if packet.getD (packetLen + 1) 0 ≠ 0x16 then .error .frameEnd
    else if packet.getD (packetLen - 1) 0 * 256 + packet.getD packetLen 0 ≠
        ((packet.drop 2).take (packetLen - 3)).sum % 65536 then
      .error .checksum
    else .ok ((packet.drop 5).take (packetLen - 6))

/-- `Stc12Protocol.read_packet`: frame start `46 B9`, then direction byte and
16-bit length in one read, then the length-prefixed body. -/
def read_packet (stream : List ℕ) : Except FrameErr (List ℕ) :=
  match readBytes 1 stream with
  | Option.none => .error .timeout
  | Option.some (b0, s1) =>
    if b0.getD 0 0 ≠ 0x46 then .error .frameStart
    else match readBytes 1 s1 with
      | Option.none => .error .timeout
      | Option.some (b1, s2) =>
        if b1.getD 0 0 ≠ 0xb9 then .error .frameStart
        else match readBytes 3 s2 with
          | Option.none => .error .timeout
          | Option.some (dirLen, s3) =>
            if dirLen.getD 0 0 ≠ 0x68 then .error .direction
            else
              read_packet_tail ([b0.getD 0 0, b1.getD 0 0] ++ dirLen)
                (dirLen.getD 1 0 * 256 + dirLen.getD 2 0) s3

end Stc12Protocol


theorem readBytes_one (a : ℕ) (t : List ℕ) : readBytes 1 (a :: t) = Option.some ([a], t) := by
  simp [readBytes]

theorem readBytes_two (a b : ℕ) (t : List ℕ) :
    readBytes 2 (a :: b :: t) = Option.some ([a, b], t) := by
  simp [readBytes, List.take_succ_cons, List.drop_succ_cons]

theorem readBytes_three (a b c : ℕ) (t : List ℕ) :
    readBytes 3 (a :: b :: c :: t) = Option.some ([a, b, c], t) := by
  simp [readBytes, List.take_succ_cons, List.drop_succ_cons]

theorem readBytes_length (l : List ℕ) : readBytes l.length l = Option.some (l, []) := by
  simp [readBytes]

theorem stc89_read_packet_tail_ok (p : List ℕ) (hi lo cw : ℕ)
    (hlen : hi * 256 + lo = p.length + 5)
    (hcw : cw = (104 + (hi + (lo + p.sum))) % 256) :
    Stc89Protocol.read_packet_tail [0x46, 0xb9, 0x68] (hi :: lo :: (p ++ [cw, 0x16])) =
      .ok p := by
  unfold Stc89Protocol.read_packet_tail
  rw [readBytes_two]
  simp only [List.getD_cons_zero, List.getD_cons_succ, hlen]
  have h2 : p.length + 5 - 3 = (p ++ [cw, 0x16]).length := by simp
  rw [h2, readBytes_length]
  simp only []
  have hsplit : ([0x46, 0xb9, 0x68] ++ [hi, lo] ++ (p ++ [cw, 0x16]) : List ℕ) =
      (0x46 :: 0xb9 :: 0x68 :: hi :: lo :: p) ++ [cw, 0x16] := by simp
  have hlen5 : (0x46 :: 0xb9 :: 0x68 :: hi :: lo :: p : List ℕ).length = p.length + 5 := by
    simp
  have hend : (([0x46, 0xb9, 0x68] ++ [hi, lo] ++ (p ++ [cw, 0x16]) : List ℕ)).getD
      (p.length + 5 + 1) 0 = 0x16 := by
    rw [hsplit, List.getD_append_right _ _ _ _ (by rw [hlen5]; omega), hlen5]
    have : p.length + 5 + 1 - (p.length + 5) = 1 := by omega
    rw [this]; rfl
  have hcsumb : (([0x46, 0xb9, 0x68] ++ [hi, lo] ++ (p ++ [cw, 0x16]) : List ℕ)).getD
      (p.length + 5) 0 = cw := by
    rw [hsplit, List.getD_append_right _ _ _ _ (by rw [hlen5]), hlen5]
    have : p.length + 5 - (p.length + 5) = 0 := by omega
    rw [this]; rfl
  have hdrop2 : (([0x46, 0xb9, 0x68] ++ [hi, lo] ++ (p ++ [cw, 0x16]) : List ℕ)).drop 2 =
      0x68 :: hi :: lo :: (p ++ [cw, 0x16]) := by simp
  have htake : ((0x68 : ℕ) :: hi :: lo :: (p ++ [cw, 0x16])).take (p.length + 5 - 2) =
      0x68 :: hi :: lo :: p := by
    have : p.length + 5 - 2 = p.length + 3 := by omega
    rw [this]
    simp only [List.take_succ_cons]
    rw [show (p ++ [cw, 0x16]).take p.length = p from by simp]
  have hdrop5 : (([0x46, 0xb9, 0x68] ++ [hi, lo] ++ (p ++ [cw, 0x16]) : List ℕ)).drop 5 =
      p ++ [cw, 0x16] := by simp
  rw [if_neg (by rw [hend]; omega)]
  rw [if_neg (by
    rw [hcsumb, hdrop2, htake]
    simp only [List.sum_cons, hcw]
    omega)]
  rw [hdrop5]
  have : p.length + 5 - 5 = p.length := by omega
  rw [this, show (p ++ [cw, 0x16]).take p.length = p from by simp]

theorem stc89_write_packet_mcu_eq (p : List ℕ) :
    Stc89Protocol.write_packet_mcu p =
      0x46 :: 0xb9 :: 0x68 :: ((p.length + 5) / 256) :: ((p.length + 5) % 256) ::
        (p ++ [(104 + ((p.length + 5) / 256 + ((p.length + 5) % 256 + p.sum))) % 256, 0x16]) := by
  simp [Stc89Protocol.write_packet_mcu]

theorem stc89_read_write_packet_mcu (p : List ℕ) :
    Stc89Protocol.read_packet (Stc89Protocol.write_packet_mcu p) = .ok p := by
  rw [stc89_write_packet_mcu_eq]
  unfold Stc89Protocol.read_packet
  rw [readBytes_one]
  norm_num
  rw [readBytes_one]
  norm_num
  rw [readBytes_one]
  norm_num
  exact stc89_read_packet_tail_ok p _ _ _ (Nat.div_add_mod' _ _) rfl

theorem stc12_write_packet_mcu_eq (p : List ℕ) :
    Stc12Protocol.write_packet_mcu p =
      0x46 :: 0xb9 :: 0x68 :: ((p.length + 6) / 256) :: ((p.length + 6) % 256) ::
        (p ++ [(104 + ((p.length + 6) / 256 + ((p.length + 6) % 256 + p.sum))) % 65536 / 256,
               (104 + ((p.length + 6) / 256 + ((p.length + 6) % 256 + p.sum))) % 65536 % 256,
               0x16]) := by
  simp [Stc12Protocol.write_packet_mcu]

theorem stc12_read_packet_tail_ok (p : List ℕ) (hi lo cH cL : ℕ)
    (hsum : cH * 256 + cL = (104 + (hi + (lo + p.sum))) % 65536) :
    Stc12Protocol.read_packet_tail [0x46, 0xb9, 0x68, hi, lo] (p.length + 6)
      (p ++ [cH, cL, 0x16]) = .ok p := by
  unfold Stc12Protocol.read_packet_tail
  have hread : readBytes (p.length + 6 - 3) (p ++ [cH, cL, 0x16]) =
      Option.some (p ++ [cH, cL, 0x16], []) := by
    have h3 : p.length + 6 - 3 = (p ++ [cH, cL, 0x16]).length := by simp
    rw [h3, readBytes_length]
  rw [hread]
  simp only []
  have hsplit : ([0x46, 0xb9, 0x68, hi, lo] ++ (p ++ [cH, cL, 0x16]) : List ℕ) =
      (0x46 :: 0xb9 :: 0x68 :: hi :: lo :: p) ++ [cH, cL, 0x16] := by simp
  have hlen5 : (0x46 :: 0xb9 :: 0x68 :: hi :: lo :: p : List ℕ).length = p.length + 5 := by simp
  have hend : (([0x46, 0xb9, 0x68, hi, lo] ++ (p ++ [cH, cL, 0x16]) : List ℕ)).getD
      (p.length + 6 + 1) 0 = 0x16 := by
    rw [hsplit, List.getD_append_right _ _ _ _ (by rw [hlen5]; omega), hlen5]
    have : p.length + 6 + 1 - (p.length + 5) = 2 := by omega
    rw [this]; rfl
  have hcH : (([0x46, 0xb9, 0x68, hi, lo] ++ (p ++ [cH, cL, 0x16]) : List ℕ)).getD
      (p.length + 6 - 1) 0 = cH := by
    rw [hsplit, List.getD_append_right _ _ _ _ (by rw [hlen5]; omega), hlen5]
    have : p.length + 6 - 1 - (p.length + 5) = 0 := by omega
    rw [this]; rfl
  have hcL : (([0x46, 0xb9, 0x68, hi, lo] ++ (p ++ [cH, cL, 0x16]) : List ℕ)).getD
      (p.length + 6) 0 = cL := by
    rw [hsplit, List.getD_append_right _ _ _ _ (by rw [hlen5]; omega), hlen5]
    have : p.length + 6 - (p.length + 5) = 1 := by omega
    rw [this]; rfl
  have hdrop2 : (([0x46, 0xb9, 0x68, hi, lo] ++ (p ++ [cH, cL, 0x16]) : List ℕ)).drop 2 =
      0x68 :: hi :: lo :: (p ++ [cH, cL, 0x16]) := by simp
  have htake : ((0x68 : ℕ) :: hi :: lo :: (p ++ [cH, cL, 0x16])).take (p.length + 6 - 3) =
      0x68 :: hi :: lo :: p := by
    have : p.length + 6 - 3 = p.length + 3 := by omega
    rw [this]
    simp only [List.take_succ_cons]
    rw [show (p ++ [cH, cL, 0x16]).take p.length = p from by simp]
  have hdrop5 : (([0x46, 0xb9, 0x68, hi, lo] ++ (p ++ [cH, cL, 0x16]) : List ℕ)).drop 5 =
      p ++ [cH, cL, 0x16] := by simp
  rw [if_neg (by rw [hend]; omega)]
  rw [if_neg (by
    rw [hcH, hcL, hdrop2, htake]
    simp only [List.sum_cons]
    omega)]
  rw [hdrop5]
  have : p.length + 6 - 6 = p.length := by omega
  rw [this, show (p ++ [cH, cL, 0x16]).take p.length = p from by simp]

theorem stc12_read_write_packet_mcu (p : List ℕ) :
    Stc12Protocol.read_packet (Stc12Protocol.write_packet_mcu p) = .ok p := by
  rw [stc12_write_packet_mcu_eq]
  unfold Stc12Protocol.read_packet
  rw [readBytes_one]
  norm_num
  rw [readBytes_one]
  norm_num
  rw [readBytes_three]
  norm_num
  rw [Nat.div_add_mod' (p.length + 6) 256]
  exact stc12_read_packet_tail_ok p _ _ _ _ (by omega)

/-! ## Baudrate calculators (protocols.py) -/

namespace Stc12Protocol

/-- `Stc12Protocol.calculate_baud` (the body of `Stc12AProtocol.calculate_baud`
is identical): `brt = 256 - round(clk / (baud * 16))`, raise
`StcProtocolException("requested baudrate cannot be set")` when
`brt <= 1 or brt > 255`, else return `(brt, (2*(256-brt)) & 0xff, iap_wait,
0x80)` with `iap_wait` looked up from the clock band.  A reconstructed-baud
error above 5% only prints a warning. -/
def calculate_baud (mcu_clock_hz : ℚ) (baud_transfer : ℚ) :
    Except String (ℤ × ℤ × ℤ × ℤ) :=
  let brt : ℤ := 256 - roundHalfEven (mcu_clock_hz / (baud_transfer * 16))
  if brt ≤ 1 ∨ brt > 255 then .error "requested baudrate cannot be set"
  else
    let brt_csum : ℤ := (2 * (256 - brt)) % 256
    let iap_wait : ℤ :=
      if mcu_clock_hz < 1000000 then 0x87
      else if mcu_clock_hz < 2000000 then 0x86
      else if mcu_clock_hz < 3000000 then 0x85
      else if mcu_clock_hz < 6000000 then 0x84
      else if mcu_clock_hz < 12000000 then 0x83
      else if mcu_clock_hz < 20000000 then 0x82
      else if mcu_clock_hz < 24000000 then 0x81
      else 0x80
    .ok (brt, brt_csum, iap_wait, 0x80)

end Stc12Protocol

namespace Stc89Protocol

/-- `Stc89Protocol.calculate_baud`: `sample_rate = 16` in 6T mode and `32`
in 12T mode, `brt = 65536 - round(clk / (baud * sample_rate))`.  The body
raises no `StcProtocolException` on any path (`baud_error` above 5% only
prints a warning), but its divisions are unguarded: the `brt` line divides
by `baud_transfer * sample_rate`, and the `baud_actual` line divides by
`sample_rate * (65536 - brt)`, which is zero exactly when
`round(clk / (baud * sample_rate)) = 0` — both raise an uncaught
`ZeroDivisionError`.  (`baud_error`'s own divisor `baud_transfer` is
non-zero whenever the first division succeeded.) -/
def calculate_baud (cpu_6t : Bool) (mcu_clock_hz : ℚ) (baud_transfer : ℚ) :
    Except PyErr (ℤ × ℤ × ℤ × ℤ) :=
  let sample_rate : ℚ := if cpu_6t then 16 else 32
  if baud_transfer * sample_rate = 0 then .error .zeroDivision
  else
    let brt : ℤ := 65536 - roundHalfEven (mcu_clock_hz / (baud_transfer * sample_rate))
    let brt_csum : ℤ := (2 * (256 - brt)) % 256
    if sample_rate * ((65536 - brt : ℤ) : ℚ) = 0 then .error .zeroDivision
    else
      let baud_actual : ℚ := mcu_clock_hz / (sample_rate * ((65536 - brt : ℤ) : ℚ))
      let baud_error : ℚ := |baud_transfer - baud_actual| * 100 / baud_transfer
      let iap_wait : ℤ :=
        if mcu_clock_hz < 5000000 then 0x83
        else if mcu_clock_hz < 10000000 then 0x82
        else if mcu_clock_hz < 20000000 then 0x81
        else 0x80
      .ok (brt, brt_csum, iap_wait, 0xa0)

end Stc89Protocol

/-- C3 counterexample: at `clk = 16`, `target_baud = 1` the ratio
`clk / (16 * baud) = 1` lies outside the open interval `(1, 255)`, so the
claim demands the "requested baudrate cannot be set" failure, yet
`Stc12Protocol.calculate_baud` succeeds and returns `BRT = 255`. -/
theorem calculate_baud12_counterexample :
    Stc12Protocol.calculate_baud 16 1 = .ok (255, 2, 0x87, 0x80) ∧
    ¬(1 < (16 : ℚ) / (1 * 16)) := by
  constructor
  · have hr : roundHalfEven ((16 : ℚ) / (1 * 16)) = 1 := by
      unfold roundHalfEven; norm_num [Int.fract]
    simp only [Stc12Protocol.calculate_baud, hr]
    norm_num
  · norm_num

/-- C3 (amended): `Stc12Protocol.calculate_baud` (and the identical
`Stc12AProtocol.calculate_baud`) succeeds exactly when
`round(clk / (16 * baud)) ∈ [1, 254]` (equivalently `BRT ∈ [2, 255]`), in
which case `BRT = 256 - round(clk / (16 * baud))`; whenever that rounded
ratio is at least 10, the reconstructed baud `clk / (16 * (256 - BRT))`
differs from the target by at most 5%.  (For a rounded ratio below 10 the
code still succeeds but only prints a warning when the error exceeds 5%.) -/
theorem calculate_baud12_amended (clk baud : ℚ) (hbaud : 0 < baud) :
    ((∃ t, Stc12Protocol.calculate_baud clk baud = .ok t) ↔
      (1 ≤ roundHalfEven (clk / (baud * 16)) ∧ roundHalfEven (clk / (baud * 16)) ≤ 254)) ∧
    (∀ brt csum iap delay,
      Stc12Protocol.calculate_baud clk baud = .ok (brt, csum, iap, delay) →
        brt = 256 - roundHalfEven (clk / (baud * 16)) ∧
        (10 ≤ roundHalfEven (clk / (baud * 16)) →
          |clk / (16 * ((256 - brt : ℤ) : ℚ)) - baud| ≤ baud / 20)) := by
  constructor
  · constructor
    · rintro ⟨t, ht⟩
      by_contra hc
      have : 256 - roundHalfEven (clk / (baud * 16)) ≤ 1 ∨
          256 - roundHalfEven (clk / (baud * 16)) > 255 := by omega
      simp only [Stc12Protocol.calculate_baud, if_pos this] at ht
      exact Except.noConfusion ht
    · intro hr
      simp only [Stc12Protocol.calculate_baud]
      rw [if_neg (by omega)]
      exact ⟨_, rfl⟩
  · intro brt csum iap delay h
    have hok : brt = 256 - roundHalfEven (clk / (baud * 16)) := by
      by_cases hco : 256 - roundHalfEven (clk / (baud * 16)) ≤ 1 ∨
          256 - roundHalfEven (clk / (baud * 16)) > 255
      · simp only [Stc12Protocol.calculate_baud, if_pos hco] at h
        exact Except.noConfusion h
      · simp only [Stc12Protocol.calculate_baud, if_neg hco, Except.ok.injEq,
          Prod.mk.injEq] at h
        exact h.1.symm
    refine ⟨hok, ?_⟩
    intro hr10
    have habs := abs_sub_roundHalfEven_le (clk / (baud * 16))
    set r : ℤ := roundHalfEven (clk / (baud * 16)) with hrdef
    have h256 : ((256 - brt : ℤ) : ℚ) = (r : ℚ) := by rw [hok]; push_cast; ring
    rw [h256]
    have hrq : (10 : ℚ) ≤ (r : ℚ) := by exact_mod_cast hr10
    have hrpos : (0 : ℚ) < (r : ℚ) := by linarith
    have hbne : (baud * 16 : ℚ) ≠ 0 := by positivity
    have hrne : ((r : ℚ)) ≠ 0 := ne_of_gt hrpos
    have hrw : clk / (16 * (r : ℚ)) - baud = (clk / (baud * 16) - (r : ℚ)) * baud / (r : ℚ) := by
      field_simp
      ring
    rw [hrw, abs_div, abs_mul, abs_of_pos hrpos, abs_of_pos hbaud]
    rw [div_le_div_iff₀ hrpos (by norm_num : (0:ℚ) < 20)]
    nlinarith [abs_nonneg (clk / (baud * 16) - (r : ℚ))]

/-- C3 (amended) witness at `clk = 18432000`, `baud = 9600`
(rounded ratio 120). -/
theorem calculate_baud12_amended_witness :
    0 < (9600 : ℚ) ∧
    (((∃ t, Stc12Protocol.calculate_baud 18432000 9600 = .ok t) ↔
      (1 ≤ roundHalfEven ((18432000 : ℚ) / (9600 * 16)) ∧
        roundHalfEven ((18432000 : ℚ) / (9600 * 16)) ≤ 254)) ∧
    (∀ brt csum iap delay,
      Stc12Protocol.calculate_baud 18432000 9600 = .ok (brt, csum, iap, delay) →
        brt = 256 - roundHalfEven ((18432000 : ℚ) / (9600 * 16)) ∧
        (10 ≤ roundHalfEven ((18432000 : ℚ) / (9600 * 16)) →
          |(18432000 : ℚ) / (16 * ((256 - brt : ℤ) : ℚ)) - 9600| ≤ 9600 / 20))) :=
  ⟨by norm_num, calculate_baud12_amended 18432000 9600 (by norm_num)⟩

/-- C5 counterexample: in 12T mode with `clk = 11059200`, `baud = 1200` the
ratio is exactly 288; the claim's formula gives `BRT = 256 - 288 = -32`,
outside `(1, 255)`, so the claim demands rejection — but
`Stc89Protocol.calculate_baud` has no rejection path and returns
`BRT = 65536 - 288 = 65248`. -/
theorem calculate_baud89_counterexample :
    Stc89Protocol.calculate_baud false 11059200 1200 = .ok (65248, 64, 0x81, 0xa0) ∧
    256 - roundHalfEven ((11059200 : ℚ) / (1200 * 32)) = -32 ∧
    ¬(1 < (-32 : ℤ) ∧ (-32 : ℤ) < 255) := by
  have hr : roundHalfEven ((11059200 : ℚ) / (1200 * 32)) = 288 := by
    unfold roundHalfEven; norm_num [Int.fract]
  refine ⟨?_, by rw [hr]; decide, by decide⟩
  simp only [Stc89Protocol.calculate_baud, Bool.false_eq_true, if_false, hr]
  norm_num

/-- C5 (amended): `Stc89Protocol.calculate_baud` computes
`BRT = 65536 - round(clk / (baud * K))` with `K = 32` in 12T mode and
`K = 16` in 6T mode and the trailing MCU delay byte `0xa0`; it never raises
the claimed "unreachable baudrate" protocol rejection — the only failure on
any input is the uncaught `ZeroDivisionError` of its unguarded divisions,
which occurs exactly when `round(clk / (baud * K)) = 0` (including
`baud = 0`, where the `brt` line itself divides by zero). -/
theorem calculate_baud89_amended (cpu_6t : Bool) (clk baud : ℚ) :
    (∀ brt csum iap delay,
      Stc89Protocol.calculate_baud cpu_6t clk baud = .ok (brt, csum, iap, delay) →
        brt = 65536 - roundHalfEven (clk / (baud * (if cpu_6t then 16 else 32))) ∧
        delay = 0xa0) ∧
    (Stc89Protocol.calculate_baud cpu_6t clk baud = .error .zeroDivision ↔
      roundHalfEven (clk / (baud * (if cpu_6t then 16 else 32))) = 0) ∧
    (∀ e, Stc89Protocol.calculate_baud cpu_6t clk baud = .error e →
      e = .zeroDivision) := by
  have hK0 : (if cpu_6t then (16 : ℚ) else 32) ≠ 0 := by cases cpu_6t <;> norm_num
  by_cases h1 : baud * (if cpu_6t then (16 : ℚ) else 32) = 0
  · have hres : Stc89Protocol.calculate_baud cpu_6t clk baud = .error .zeroDivision := by
      simp only [Stc89Protocol.calculate_baud]
      rw [if_pos h1]
    have hr0 : roundHalfEven (clk / (baud * (if cpu_6t then (16 : ℚ) else 32))) = 0 := by
      rw [h1, div_zero]
      norm_num [roundHalfEven, Int.fract]
    refine ⟨?_, ⟨fun _ => hr0, fun _ => hres⟩, ?_⟩
    · intro brt csum iap delay h
      rw [hres] at h
      exact Except.noConfusion h
    · intro e h
      rw [hres] at h
      injection h with h
      exact h.symm
  · by_cases h2 : (if cpu_6t then (16 : ℚ) else 32) *
        ((65536 - (65536 - roundHalfEven (clk / (baud * (if cpu_6t then (16 : ℚ) else 32)))) : ℤ) : ℚ) = 0
    · have hres : Stc89Protocol.calculate_baud cpu_6t clk baud = .error .zeroDivision := by
        simp only [Stc89Protocol.calculate_baud]
        rw [if_neg h1, if_pos h2]
      have hr0 : roundHalfEven (clk / (baud * (if cpu_6t then (16 : ℚ) else 32))) = 0 := by
        rcases mul_eq_zero.mp h2 with hx | hx
        · exact absurd hx hK0
        · have hxi : (65536 - (65536 - roundHalfEven (clk / (baud * (if cpu_6t then (16 : ℚ) else 32)))) : ℤ) = 0 := by exact_mod_cast hx
          omega
      refine ⟨?_, ⟨fun _ => hr0, fun _ => hres⟩, ?_⟩
      · intro brt csum iap delay h
        rw [hres] at h
        exact Except.noConfusion h
      · intro e h
        rw [hres] at h
        injection h with h
        exact h.symm
    · have hok : ∃ t, Stc89Protocol.calculate_baud cpu_6t clk baud = .ok t ∧
          t.1 = 65536 - roundHalfEven (clk / (baud * (if cpu_6t then (16 : ℚ) else 32))) ∧ t.2.2.2 = 0xa0 := by
        simp only [Stc89Protocol.calculate_baud]
        rw [if_neg h1, if_neg h2]
        exact ⟨_, rfl, rfl, rfl⟩
      obtain ⟨t, ht, ht1, ht4⟩ := hok
      have hrne : roundHalfEven (clk / (baud * (if cpu_6t then (16 : ℚ) else 32))) ≠ 0 := by
        intro h0
        apply h2
        rw [show (65536 - (65536 - roundHalfEven (clk / (baud * (if cpu_6t then (16 : ℚ) else 32)))) : ℤ) = 0 from by omega]
        simp
      refine ⟨?_, ⟨?_, ?_⟩, ?_⟩
      · intro brt csum iap delay h
        rw [ht] at h
        injection h with h
        subst h
        exact ⟨ht1, ht4⟩
      · intro hcontra
        rw [ht] at hcontra
        exact Except.noConfusion hcontra
      · intro h0
        exact absurd h0 hrne
      · intro e h
        rw [ht] at h
        exact Except.noConfusion h

/-- C5 (amended) witness at 12T mode, `clk = 11059200`, `baud = 4800`
(rounded ratio 72, so the calculator succeeds). -/
theorem calculate_baud89_amended_witness :
    (∀ brt csum iap delay,
      Stc89Protocol.calculate_baud false 11059200 4800 = .ok (brt, csum, iap, delay) →
        brt = 65536 - roundHalfEven ((11059200 : ℚ) / (4800 * (if false then 16 else 32))) ∧
        delay = 0xa0) ∧
    (Stc89Protocol.calculate_baud false 11059200 4800 = .error .zeroDivision ↔
      roundHalfEven ((11059200 : ℚ) / (4800 * (if false then 16 else 32))) = 0) ∧
    (∀ e, Stc89Protocol.calculate_baud false 11059200 4800 = .error e →
      e = .zeroDivision) :=
  calculate_baud89_amended false 11059200 4800

/-! ## Flash erase packets (protocols.py) -/

namespace Stc12Protocol

/-- `ERASE_COUNTDOWN` of `Stc12Protocol`. -/
def ERASE_COUNTDOWN : ℕ := 0x0d

/-- `for i in range(0x80, countdown, -1): packet += bytes([i])` — the
countdown tail of the erase packet: `0x80, 0x7f, …, countdown + 1`. -/
def countdown_bytes (countdown : ℕ) : List ℕ :=
  (List.range (0x80 - countdown)).map (fun i => 0x80 - i)

/-- The erase packet `Stc12Protocol.erase_flash` sends (the body of
`Stc12AProtocol.erase_flash` builds the identical packet): a 19-byte header
holding the doubled 512-byte block counts of `erase_size` (offset 3) and
`flash_size` (offset 6), then the countdown tail.  Byte values are the
Python ints placed into `bytes(...)`; for `erase_size > 65024` the doubled
block count would exceed 255 and `bytes()` would raise `ValueError`, a path
no model in the database reaches. -/
def erase_packet (erase_size flash_size countdown : ℕ) : List ℕ :=
  let blks := ((erase_size + 511) / 512) * 2
  let size := ((flash_size + 511) / 512) * 2
  [0x84, 0xff, 0x00, blks, 0x00, 0x00, size,
   0x00, 0x00, 0x00, 0x00, 0x00, 0x00, 0x00,
   0x00, 0x00, 0x00, 0x00, 0x00] ++ countdown_bytes countdown

end Stc12Protocol

namespace Stc12AProtocol

/-- `ERASE_COUNTDOWN` of `Stc12AProtocol`. -/
def ERASE_COUNTDOWN : ℕ := 0x0d

end Stc12AProtocol

namespace Stc15AProtocol

/-- `ERASE_COUNTDOWN` of `Stc15AProtocol`. -/
def ERASE_COUNTDOWN : ℕ := 0x5e

end Stc15AProtocol

theorem nat_ceil_div_512 (e : ℕ) : (((e + 511) / 512 : ℕ) : ℤ) = ⌈(e : ℚ) / 512⌉ := by
  rw [eq_comm, Int.ceil_eq_iff]
  have h1 : 512 * ((e + 511) / 512) ≤ e + 511 := by omega
  have h2 : e ≤ 512 * ((e + 511) / 512) := by omega
  qify at h1 h2
  constructor
  · rw [lt_div_iff₀ (by norm_num : (0:ℚ) < 512)]
    push_cast
    linarith
  · rw [div_le_iff₀ (by norm_num : (0:ℚ) < 512)]
    push_cast
    linarith


theorem countdown_bytes_chain (cd : ℕ) :
    List.Chain' (fun a b => b < a) (Stc12Protocol.countdown_bytes cd) := by
  unfold Stc12Protocol.countdown_bytes
  rw [List.chain'_map]
  rcases Nat.eq_zero_or_pos (0x80 - cd) with h | h
  · rw [h]; simp
  · obtain ⟨k, hk⟩ : ∃ k, 0x80 - cd = k + 1 := ⟨0x80 - cd - 1, by omega⟩
    rw [hk, List.chain'_range_succ]
    intro m hm
    omega

/-- C6: for every `erase_size`, the 12-series erase packet announces
`ceil(erase_size / 512) * 2` blocks in its byte at offset 3, and it ends in
the strictly decreasing countdown tail `0x80, 0x7f, …, ERASE_COUNTDOWN + 1`,
with `ERASE_COUNTDOWN = 0x0d` for the 12/12A families and `0x5e` for the
15A family. -/
theorem erase_packet_blocks_countdown (erase_size flash_size : ℕ) :
    Stc12Protocol.ERASE_COUNTDOWN = 0x0d ∧
    Stc12AProtocol.ERASE_COUNTDOWN = 0x0d ∧
    Stc15AProtocol.ERASE_COUNTDOWN = 0x5e ∧
    (((Stc12Protocol.erase_packet erase_size flash_size
        Stc12Protocol.ERASE_COUNTDOWN).getD 3 0 : ℕ) : ℤ) = ⌈(erase_size : ℚ) / 512⌉ * 2 ∧
    (((Stc12Protocol.erase_packet erase_size flash_size
        Stc15AProtocol.ERASE_COUNTDOWN).getD 3 0 : ℕ) : ℤ) = ⌈(erase_size : ℚ) / 512⌉ * 2 ∧
    (Stc12Protocol.erase_packet erase_size flash_size Stc12Protocol.ERASE_COUNTDOWN).drop 19
      = Stc12Protocol.countdown_bytes 0x0d ∧
    (Stc12Protocol.erase_packet erase_size flash_size Stc15AProtocol.ERASE_COUNTDOWN).drop 19
      = Stc12Protocol.countdown_bytes 0x5e ∧
    List.Chain' (fun a b => b < a) (Stc12Protocol.countdown_bytes 0x0d) ∧
    List.Chain' (fun a b => b < a) (Stc12Protocol.countdown_bytes 0x5e) ∧
    (Stc12Protocol.countdown_bytes 0x0d).head? = Option.some 0x80 ∧
    (Stc12Protocol.countdown_bytes 0x0d).getLast? = Option.some (0x0d + 1) ∧
    (Stc12Protocol.countdown_bytes 0x5e).head? = Option.some 0x80 ∧
    (Stc12Protocol.countdown_bytes 0x5e).getLast? = Option.some (0x5e + 1) := by
  refine ⟨rfl, rfl, rfl, ?_, ?_, rfl, rfl,
    countdown_bytes_chain 0x0d, countdown_bytes_chain 0x5e,
    by decide, by decide, by decide, by decide⟩
  · rw [show (Stc12Protocol.erase_packet erase_size flash_size
        Stc12Protocol.ERASE_COUNTDOWN).getD 3 0 = ((erase_size + 511) / 512) * 2 from rfl,
      Nat.cast_mul, nat_ceil_div_512]
    norm_num
  · rw [show (Stc12Protocol.erase_packet erase_size flash_size
        Stc15AProtocol.ERASE_COUNTDOWN).getD 3 0 = ((erase_size + 511) / 512) * 2 from rfl,
      Nat.cast_mul, nat_ceil_div_512]
    norm_num

/-! ## Image assembly (frontend.py, `StcGal.program_mcu`) -/

/-- Result of the image-assembly phase of `StcGal.program_mcu`: the byte
string handed to `erase_flash`/`program_flash` plus the warnings printed
along the way. -/
structure ProgramImage where
  image : List ℕ
  warn_code_overflow : Bool
  warn_code_trunc : Bool
  warn_ee_trunc : Bool
  warn_ee_overlap : Bool
deriving Repr

namespace StcGal

/-- `# pad to 512 byte boundary` (frontend.py): extend with `0xff` when the
length is not already a multiple of 512. -/
def pad512 (bindata : List ℕ) : List ℕ :=
  if bindata.length % 512 ≠ 0 then
    bindata ++ List.replicate (512 - bindata.length % 512) 0xff
  else bindata

/-- The image-assembly steps of `StcGal.program_mcu` (frontend.py): warn if
the code image overflows into the eeprom segment, truncate past
`code_size + ee_size`, optionally splice an eeprom image at `code_size`
(padding the code part with zero bytes or truncating it to fit), then pad
the result to a 512-byte boundary with `0xff`. -/
def program_mcu_image (code_size ee_size : ℕ) (code_img : List ℕ)
    (ee_img : Option (List ℕ)) : ProgramImage :=
  let bindata := code_img
  let warn_code_overflow := decide (bindata.length > code_size)
  let warn_code_trunc := decide (bindata.length > code_size + ee_size)
  let bindata := if bindata.length > code_size + ee_size then
      bindata.take (code_size + ee_size) else bindata
  match ee_img with
  | Option.none =>
    ⟨pad512 bindata, warn_code_overflow, warn_code_trunc, false, false⟩
  | Option.some eedata =>
    let warn_ee_trunc := decide (eedata.length > ee_size)
    let eedata := if eedata.length > ee_size then eedata.take ee_size else eedata
    let warn_ee_overlap := decide (bindata.length > code_size)
    let bindata :=
      if bindata.length < code_size then
        bindata ++ List.replicate (code_size - bindata.length) 0
      else if bindata.length > code_size then bindata.take code_size
      else bindata
    ⟨pad512 (bindata ++ eedata), warn_code_overflow, warn_code_trunc,
      warn_ee_trunc, warn_ee_overlap⟩

end StcGal

theorem pad512_length_mod (l : List ℕ) : (StcGal.pad512 l).length % 512 = 0 := by
  unfold StcGal.pad512
  split_ifs with h
  · simp only [List.length_append, List.length_replicate]
    omega
  · omega

theorem pad512_length_le (l : List ℕ) (cap : ℕ) (h : l.length ≤ cap) :
    (StcGal.pad512 l).length ≤ ((cap + 511) / 512) * 512 := by
  unfold StcGal.pad512
  split_ifs with h512
  · simp only [List.length_append, List.length_replicate]
    omega
  · omega

set_option maxRecDepth 4000 in
/-- C4 counterexample: with `model.code = 1`, `model.eeprom = 0` and a
1-byte code image, the assembled image is padded to 512 bytes, which
exceeds `model.code + model.eeprom = 1`, refuting the claimed length
invariant (and exhibiting 512-byte padding irrespective of family). -/
theorem program_mcu_image_counterexample :
    (StcGal.program_mcu_image 1 0 [0] Option.none).image.length = 512 ∧
    ¬((StcGal.program_mcu_image 1 0 [0] Option.none).image.length ≤ 1 + 0) := by
  have h : (StcGal.program_mcu_image 1 0 [0] Option.none).image.length = 512 := by rfl
  exact ⟨h, by rw [h]; decide⟩

/-- C4 (amended): the assembled image always has a length that is a multiple
of 512 and at most `code + eeprom` rounded up to the next 512-byte boundary
(the unpadded content is capped at `code + eeprom`); the code-overflow and
truncation warnings fire exactly when the code image exceeds `code` resp.
`code + eeprom`; padding is to a 512-byte boundary for every family. -/
theorem program_mcu_image_amended (code_size ee_size : ℕ) (code_img : List ℕ)
    (ee_img : Option (List ℕ)) :
    (StcGal.program_mcu_image code_size ee_size code_img ee_img).image.length % 512 = 0 ∧
    (StcGal.program_mcu_image code_size ee_size code_img ee_img).image.length ≤
      ((code_size + ee_size + 511) / 512) * 512 ∧
    (StcGal.program_mcu_image code_size ee_size code_img ee_img).warn_code_overflow =
      decide (code_img.length > code_size) ∧
    (StcGal.program_mcu_image code_size ee_size code_img ee_img).warn_code_trunc =
      decide (code_img.length > code_size + ee_size) := by
  rcases ee_img with _ | eedata
  · simp only [StcGal.program_mcu_image]
    refine ⟨pad512_length_mod _, ?_, by trivial, by trivial⟩
    apply pad512_length_le
    split_ifs with h
    · simp only [List.length_take]
      omega
    · omega
  · simp only [StcGal.program_mcu_image]
    refine ⟨pad512_length_mod _, ?_, by trivial, by trivial⟩
    apply pad512_length_le
    rw [List.length_append]
    set bd := if code_img.length > code_size + ee_size then
        code_img.take (code_size + ee_size) else code_img with hbd
    set ed := if eedata.length > ee_size then eedata.take ee_size else eedata with hed
    have hee : ed.length ≤ ee_size := by
      rw [hed]; split_ifs with h
      · simp only [List.length_take]; omega
      · omega
    have hco : (if bd.length < code_size then bd ++ List.replicate (code_size - bd.length) 0
        else if bd.length > code_size then bd.take code_size else bd).length = code_size := by
      split_ifs with h1 h2
      · simp only [List.length_append, List.length_replicate]; omega
      · simp only [List.length_take]; omega
      · omega
    rw [hco]
    omega

/-- C2 counterexample: `read_packet` applied to the exact byte stream that
`write_packet` produces fails with the "incorrect packet direction magic"
framing error (the host stream carries direction byte `0x6a`, `read_packet`
accepts only `0x68`), already for the empty payload, in both dialects. -/
theorem read_write_packet_roundtrip_counterexample :
    Stc89Protocol.read_packet (Stc89Protocol.write_packet []) = .error .direction ∧
    Stc89Protocol.read_packet (Stc89Protocol.write_packet []) ≠ .ok [] ∧
    Stc12Protocol.read_packet (Stc12Protocol.write_packet []) = .error .direction ∧
    Stc12Protocol.read_packet (Stc12Protocol.write_packet []) ≠ .ok [] := by
  refine ⟨rfl, ?_, rfl, ?_⟩
  · rw [show Stc89Protocol.read_packet (Stc89Protocol.write_packet []) =
      .error .direction from rfl]
    exact fun h => Except.noConfusion h
  · rw [show Stc12Protocol.read_packet (Stc12Protocol.write_packet []) =
      .error .direction from rfl]
    exact fun h => Except.noConfusion h

/-- C2 (amended): for every payload of length 0..65529 (of byte values),
`read_packet` applied to the byte stream `write_packet` would produce with
the MCU direction magic `0x68` in place of the host magic `0x6a` (checksum
covering it accordingly) yields the payload again, in both dialects
(dialect A: 8-bit checksum, `LEN = payload + 5`; dialect B: 16-bit
big-endian checksum, `LEN = payload + 6`). -/
theorem read_write_packet_mcu_roundtrip (p : List ℕ)
    (_hlen : p.length ≤ 65529) (_hbytes : ∀ b ∈ p, b < 256) :
    Stc89Protocol.read_packet (Stc89Protocol.write_packet_mcu p) = .ok p ∧
    Stc12Protocol.read_packet (Stc12Protocol.write_packet_mcu p) = .ok p :=
  ⟨stc89_read_write_packet_mcu p, stc12_read_write_packet_mcu p⟩

/-- C2 (amended) witness at the payload `[0x50, 0x00, 0x03]`. -/
theorem read_write_packet_mcu_roundtrip_witness :
    ([0x50, 0x00, 0x03] : List ℕ).length ≤ 65529 ∧
    (∀ b ∈ ([0x50, 0x00, 0x03] : List ℕ), b < 256) ∧
    (Stc89Protocol.read_packet (Stc89Protocol.write_packet_mcu [0x50, 0x00, 0x03]) =
        .ok [0x50, 0x00, 0x03] ∧
      Stc12Protocol.read_packet (Stc12Protocol.write_packet_mcu [0x50, 0x00, 0x03]) =
        .ok [0x50, 0x00, 0x03]) :=
  ⟨by decide, by decide,
    read_write_packet_mcu_roundtrip [0x50, 0x00, 0x03] (by decide) (by decide)⟩

/-! ## Option codecs (options.py) -/

/-- `self.msr[i] &= c; self.msr[i] |= s` on a `bytearray`. -/
def byteUpd (msr : List ℕ) (i c s : ℕ) : List ℕ :=
  msr.set i (((msr.getD i 0) &&& c) ||| s)

/-- `self.msr &= c; self.msr |= s` on the single-byte `msr` of `Stc89Option`. -/
def natUpd (msr c s : ℕ) : ℕ := (msr &&& c) ||| s

/-- A named MSR option: its byte offset, the mask of the bits it owns, and
its setter (returning `none` where the source raises `ValueError`). -/
structure OptEntry where
  name : String
  idx : ℕ
  mask : ℕ
  set : PyVal → List ℕ → Option (List ℕ)

/-- The setter touches only the masked bits of its own byte: the bits
outside the mask and all other bytes survive, the length is unchanged, and
byte values stay bytes. -/
def SetterMasked (idx mask : ℕ) (set : PyVal → List ℕ → Option (List ℕ)) : Prop :=
  ∀ v msr msr', set v msr = Option.some msr' →
    msr'.length = msr.length ∧
    (∀ j, j ≠ idx → msr'.getD j 0 = msr.getD j 0) ∧
    msr'.getD idx 0 &&& (255 ^^^ mask) = msr.getD idx 0 &&& (255 ^^^ mask) ∧
    (msr.getD idx 0 < 256 → msr'.getD idx 0 < 256)

/-- Every option of a codec's table satisfies `SetterMasked`. -/
def TableMasked (table : List OptEntry) : Prop :=
  ∀ e ∈ table, SetterMasked e.idx e.mask e.set

/-- `Stc89Option` keeps its whole MSR in one `int`; masked-setter property
for that case. -/
def Setter89Masked (mask : ℕ) (set : PyVal → ℕ → Option ℕ) : Prop :=
  ∀ v m m', set v m = Option.some m' →
    m' &&& (255 ^^^ mask) = m &&& (255 ^^^ mask) ∧ (m < 256 → m' < 256)

theorem and_or_masked (m c s : ℕ) (h : s &&& c = 0) : ((m &&& c) ||| s) &&& c = m &&& c := by
  apply Nat.eq_of_testBit_eq
  intro i
  have h2 : (s &&& c).testBit i = Nat.testBit 0 i := by rw [h]
  simp only [Nat.testBit_and, Nat.testBit_or, Nat.zero_testBit] at h2 ⊢
  cases hs : s.testBit i <;> cases hcb : c.testBit i <;> cases hm : (m.testBit i) <;> simp_all

theorem or_lt_256 {a b : ℕ} (ha : a < 256) (hb : b < 256) : a ||| b < 256 := by
  have h256 : (2:ℕ) ^ 8 = 256 := by norm_num
  exact h256 ▸ Nat.or_lt_two_pow (h256.symm ▸ ha) (h256.symm ▸ hb)

theorem byteUpd_getD_ne (msr : List ℕ) (i c s j : ℕ) (hj : j ≠ i) :
    (byteUpd msr i c s).getD j 0 = msr.getD j 0 := by
  unfold byteUpd
  simp only [List.getD, List.get?_eq_getElem?]
  rw [List.getElem?_set_ne (Ne.symm hj)]

theorem byteUpd_getD_self_lt (msr : List ℕ) (i c s : ℕ) (hi : i < msr.length) :
    (byteUpd msr i c s).getD i 0 = (msr.getD i 0 &&& c) ||| s := by
  unfold byteUpd
  simp only [List.getD, List.get?_eq_getElem?]
  rw [List.getElem?_set_self (by simpa using hi)]
  rfl

theorem byteUpd_of_length_le (msr : List ℕ) (i c s : ℕ) (hi : msr.length ≤ i) :
    byteUpd msr i c s = msr := by
  unfold byteUpd
  exact List.set_eq_of_length_le hi

theorem SetterMasked_byteUpd (idx mask c : ℕ)
    (set : PyVal → List ℕ → Option (List ℕ)) (hc : c = 255 ^^^ mask) (hc255 : c < 256)
    (h : ∀ v msr msr', set v msr = Option.some msr' →
      ∃ s, s &&& c = 0 ∧ s < 256 ∧ msr' = byteUpd msr idx c s) :
    SetterMasked idx mask set := by
  intro v msr msr' hset
  obtain ⟨s, hs0, hs256, rfl⟩ := h v msr msr' hset
  subst hc
  refine ⟨List.length_set .., fun j hj => byteUpd_getD_ne msr idx _ _ j hj, ?_, ?_⟩
  · by_cases hi : idx < msr.length
    · rw [byteUpd_getD_self_lt msr idx _ _ hi]
      exact and_or_masked _ _ _ hs0
    · rw [byteUpd_of_length_le msr idx _ _ (le_of_not_lt hi)]
  · intro hb
    by_cases hi : idx < msr.length
    · rw [byteUpd_getD_self_lt msr idx _ _ hi]
      exact or_lt_256 (lt_of_le_of_lt Nat.and_le_right hc255) hs256
    · rw [byteUpd_of_length_le msr idx _ _ (le_of_not_lt hi)]
      exact hb

theorem Setter89Masked_natUpd (mask c : ℕ) (set : PyVal → ℕ → Option ℕ)
    (hc : c = 255 ^^^ mask) (hc255 : c < 256)
    (h : ∀ v m m', set v m = Option.some m' →
      ∃ s, s &&& c = 0 ∧ s < 256 ∧ m' = natUpd m c s) :
    Setter89Masked mask set := by
  intro v m m' hset
  obtain ⟨s, hs0, hs256, rfl⟩ := h v m m' hset
  subst hc
  constructor
  · exact and_or_masked _ _ _ hs0
  · intro hb
    exact or_lt_256 (lt_of_le_of_lt Nat.and_le_right hc255) hs256

namespace BaseOption

/-- `BaseOption.get_msr`: `bytes(self.msr)` — returns the MSR bytes as-is. -/
def get_msr (msr : List ℕ) : List ℕ := msr

/-- A zero-parameter bound method (every getter in options.py takes only
`self`): CPython raises `TypeError` when a call passes more positional
arguments than the function accepts. -/
def method0 (f : Unit → PyVal) : List PyVal → Except PyErr PyVal := fun args =>
  if args.length = 0 then .ok (f ()) else .error .typeError

/-- `BaseOption.get_option`:
```
for opt, get_func, _ in self.options:
    if opt == name:
        return get_func(name)
raise ValueError("unknown")
```
The iteration is `find?` over the `(name, getter)` table; note the source
passes `name` as a positional argument to the getter it found. -/
def get_option (options : List (List ℕ × (List PyVal → Except PyErr PyVal)))
    (name : List ℕ) : Except PyErr PyVal :=
  match options.find? (fun e => decide (e.1 = name)) with
  | Option.some e => e.2 [PyVal.str name]
  | Option.none => .error (.valueError (pyStr "unknown"))

end BaseOption

namespace Stc89Option

/-- `Stc89Option` getters; the MSR is a single `int`. -/
def get_t6 (msr : ℕ) : PyVal := .bool (decide (msr &&& 1 = 0))

def set_t6 (val : PyVal) (msr : ℕ) : Option ℕ :=
  Option.some (natUpd msr 0xfe (if Utils.to_bool val = false then 0x01 else 0x00))

def get_pindetect (msr : ℕ) : PyVal := .bool (decide (msr &&& 4 = 0))

def set_pindetect (val : PyVal) (msr : ℕ) : Option ℕ :=
  Option.some (natUpd msr 0xfb (if Utils.to_bool val = false then 0x04 else 0x00))

def get_ee_erase (msr : ℕ) : PyVal := .bool (decide (msr &&& 8 = 0))

def set_ee_erase (val : PyVal) (msr : ℕ) : Option ℕ :=
  Option.some (natUpd msr 0xf7 (if Utils.to_bool val = false then 0x08 else 0x00))

def get_clock_gain (msr : ℕ) : PyVal :=
  .str (if msr &&& 16 ≠ 0 then pyStr "high" else pyStr "low")

def set_clock_gain (val : PyVal) (msr : ℕ) : Option ℕ :=
  match val with
  | .str sv =>
    if sv = pyStr "low" then Option.some (natUpd msr 0xef 0)
    else if sv = pyStr "high" then Option.some (natUpd msr 0xef 0x10)
    else Option.none
  | _ => Option.none

def get_ale (msr : ℕ) : PyVal := .bool (decide (msr &&& 32 ≠ 0))

def set_ale (val : PyVal) (msr : ℕ) : Option ℕ :=
  Option.some (natUpd msr 0xdf (if Utils.to_bool val then 0x20 else 0x00))

def get_xram (msr : ℕ) : PyVal := .bool (decide (msr &&& 64 ≠ 0))

def set_xram (val : PyVal) (msr : ℕ) : Option ℕ :=
  Option.some (natUpd msr 0xbf (if Utils.to_bool val then 0x40 else 0x00))

def get_watchdog (msr : ℕ) : PyVal := .bool (decide (msr &&& 128 = 0))

def set_watchdog (val : PyVal) (msr : ℕ) : Option ℕ :=
  Option.some (natUpd msr 0x7f (if Utils.to_bool val = false then 0x80 else 0x00))

/-- The `self.options` table of `Stc89Option` in the `(name, getter)` view
used by `get_option` (each getter is a zero-parameter bound method). -/
def options (msr : ℕ) : List (List ℕ × (List PyVal → Except PyErr PyVal)) :=
  [(pyStr "cpu_6t_enabled", BaseOption.method0 (fun _ => get_t6 msr)),
   (pyStr "bsl_pindetect_enabled", BaseOption.method0 (fun _ => get_pindetect msr)),
   (pyStr "eeprom_erase_enabled", BaseOption.method0 (fun _ => get_ee_erase msr)),
   (pyStr "clock_gain", BaseOption.method0 (fun _ => get_clock_gain msr)),
   (pyStr "ale_enabled", BaseOption.method0 (fun _ => get_ale msr)),
   (pyStr "xram_enabled", BaseOption.method0 (fun _ => get_xram msr)),
   (pyStr "watchdog_por_enabled", BaseOption.method0 (fun _ => get_watchdog msr))]

/-- The same table in the `(name, mask, setter)` view. -/
def options_masks : List (String × ℕ × (PyVal → ℕ → Option ℕ)) :=
  [("cpu_6t_enabled", 0x01, set_t6),
   ("bsl_pindetect_enabled", 0x04, set_pindetect),
   ("eeprom_erase_enabled", 0x08, set_ee_erase),
   ("clock_gain", 0x10, set_clock_gain),
   ("ale_enabled", 0x20, set_ale),
   ("xram_enabled", 0x40, set_xram),
   ("watchdog_por_enabled", 0x80, set_watchdog)]

end Stc89Option

/-- C8: for every recognized option name, `get_option` fails with
`TypeError` — the dispatch loop calls the zero-parameter getter with `name`
as an extra positional argument (`return get_func(name)`), so it never
returns the decoded value; an unrecognized name raises
`ValueError("unknown")` as documented.  Evaluated on `Stc89Option` with
`msr = 0`: all seven recognized names produce `TypeError`. -/
theorem get_option_arity_bug :
    ((Stc89Option.options 0).map
        (fun e => BaseOption.get_option (Stc89Option.options 0) e.1)) =
      List.replicate 7 (.error .typeError) ∧
    BaseOption.get_option (Stc89Option.options 0) (pyStr "nope") =
      .error (.valueError (pyStr "unknown")) :=
  ⟨rfl, rfl⟩

namespace Stc12AOption

/-- `Stc12AOption` setters; the MSR is a 4-byte `bytearray`. -/
def set_low_voltage_detect (val : PyVal) (msr : List ℕ) : Option (List ℕ) :=
  match val with
  | .str sv =>
    if sv = pyStr "low" then Option.some (byteUpd msr 3 0xbf (1 <<< 6))
    else if sv = pyStr "high" then Option.some (byteUpd msr 3 0xbf (0 <<< 6))
    else Option.none
  | _ => Option.none

def set_clock_source (val : PyVal) (msr : List ℕ) : Option (List ℕ) :=
  match val with
  | .str sv =>
    if sv = pyStr "internal" then Option.some (byteUpd msr 0 0xfd (0 <<< 1))
    else if sv = pyStr "external" then Option.some (byteUpd msr 0 0xfd (1 <<< 1))
    else Option.none
  | _ => Option.none

def set_watchdog (val : PyVal) (msr : List ℕ) : Option (List ℕ) :=
  Option.some (byteUpd msr 1 0xdf (if Utils.to_bool val = false then 0x20 else 0x00))

def set_watchdog_idle (val : PyVal) (msr : List ℕ) : Option (List ℕ) :=
  Option.some (byteUpd msr 1 0xf7 (if Utils.to_bool val = false then 0x08 else 0x00))

/-- `wd_vals = {2: 0, 4: 1, 8: 2, 16: 3, 32: 4, 64: 5, 128: 6, 256: 7}`. -/
def set_watchdog_prescale (val : PyVal) (msr : List ℕ) : Option (List ℕ) :=
  match Utils.to_int val with
  | Option.none => Option.none
  | Option.some n =>
    if n = 2 then Option.some (byteUpd msr 1 0xf8 0)
    else if n = 4 then Option.some (byteUpd msr 1 0xf8 1)
    else if n = 8 then Option.some (byteUpd msr 1 0xf8 2)
    else if n = 16 then Option.some (byteUpd msr 1 0xf8 3)
    else if n = 32 then Option.some (byteUpd msr 1 0xf8 4)
    else if n = 64 then Option.some (byteUpd msr 1 0xf8 5)
    else if n = 128 then Option.some (byteUpd msr 1 0xf8 6)
    else if n = 256 then Option.some (byteUpd msr 1 0xf8 7)
    else Option.none

def set_ee_erase (val : PyVal) (msr : List ℕ) : Option (List ℕ) :=
  Option.some (byteUpd msr 2 0xfd (if Utils.to_bool val = false then 0x02 else 0x00))

def set_pindetect (val : PyVal) (msr : List ℕ) : Option (List ℕ) :=
  Option.some (byteUpd msr 2 0xfe (if Utils.to_bool val = false then 0x01 else 0x00))

/-- The `self.options` table of `Stc12AOption` with each option's byte
offset and mask. -/
def table : List OptEntry :=
  [⟨"low_voltage_reset", 3, 0x40, set_low_voltage_detect⟩,
   ⟨"clock_source", 0, 0x02, set_clock_source⟩,
   ⟨"watchdog_por_enabled", 1, 0x20, set_watchdog⟩,
   ⟨"watchdog_stop_idle", 1, 0x08, set_watchdog_idle⟩,
   ⟨"watchdog_prescale", 1, 0x07, set_watchdog_prescale⟩,
   ⟨"eeprom_erase_enabled", 2, 0x02, set_ee_erase⟩,
   ⟨"bsl_pindetect_enabled", 2, 0x01, set_pindetect⟩]

end Stc12AOption

namespace Stc12Option

/-- `Stc12Option` setters; the MSR is a 4-byte `bytearray`. -/
def set_reset_pin_enabled (val : PyVal) (msr : List ℕ) : Option (List ℕ) :=
  Option.some (byteUpd msr 0 0xfe (if Utils.to_bool val then 0x01 else 0x00))

def set_low_voltage_detect (val : PyVal) (msr : List ℕ) : Option (List ℕ) :=
  Option.some (byteUpd msr 0 0xbf (if Utils.to_bool val = false then 0x40 else 0x00))

/-- `osc_vals = {4096: 0, 8192: 1, 16384: 2, 32768: 3}`, shifted left 4. -/
def set_osc_stable_delay (val : PyVal) (msr : List ℕ) : Option (List ℕ) :=
  match Utils.to_int val with
  | Option.none => Option.none
  | Option.some n =>
    if n = 4096 then Option.some (byteUpd msr 0 0xcf (0 <<< 4))
    else if n = 8192 then Option.some (byteUpd msr 0 0xcf (1 <<< 4))
    else if n = 16384 then Option.some (byteUpd msr 0 0xcf (2 <<< 4))
    else if n = 32768 then Option.some (byteUpd msr 0 0xcf (3 <<< 4))
    else Option.none

def set_por_delay (val : PyVal) (msr : List ℕ) : Option (List ℕ) :=
  match val with
  | .str sv =>
    if sv = pyStr "short" then Option.some (byteUpd msr 1 0x7f (1 <<< 7))
    else if sv = pyStr "long" then Option.some (byteUpd msr 1 0x7f (0 <<< 7))
    else Option.none
  | _ => Option.none

def set_clock_gain (val : PyVal) (msr : List ℕ) : Option (List ℕ) :=
  match val with
  | .str sv =>
    if sv = pyStr "low" then Option.some (byteUpd msr 1 0xbf (0 <<< 6))
    else if sv = pyStr "high" then Option.some (byteUpd msr 1 0xbf (1 <<< 6))
    else Option.none
  | _ => Option.none

def set_clock_source (val : PyVal) (msr : List ℕ) : Option (List ℕ) :=
  match val with
  | .str sv =>
    if sv = pyStr "internal" then Option.some (byteUpd msr 1 0xfd (0 <<< 1))
    else if sv = pyStr "external" then Option.some (byteUpd msr 1 0xfd (1 <<< 1))
    else Option.none
  | _ => Option.none

def set_watchdog (val : PyVal) (msr : List ℕ) : Option (List ℕ) :=
  Option.some (byteUpd msr 2 0xdf (if Utils.to_bool val = false then 0x20 else 0x00))

def set_watchdog_idle (val : PyVal) (msr : List ℕ) : Option (List ℕ) :=
  Option.some (byteUpd msr 2 0xf7 (if Utils.to_bool val = false then 0x08 else 0x00))

def set_watchdog_prescale (val : PyVal) (msr : List ℕ) : Option (List ℕ) :=
  match Utils.to_int val with
  | Option.none => Option.none
  | Option.some n =>
    if n = 2 then Option.some (byteUpd msr 2 0xf8 0)
    else if n = 4 then Option.some (byteUpd msr 2 0xf8 1)
    else if n = 8 then Option.some (byteUpd msr 2 0xf8 2)
    else if n = 16 then Option.some (byteUpd msr 2 0xf8 3)
    else if n = 32 then Option.some (byteUpd msr 2 0xf8 4)
    else if n = 64 then Option.some (byteUpd msr 2 0xf8 5)
    else if n = 128 then Option.some (byteUpd msr 2 0xf8 6)
    else if n = 256 then Option.some (byteUpd msr 2 0xf8 7)
    else Option.none

def set_ee_erase (val : PyVal) (msr : List ℕ) : Option (List ℕ) :=
  Option.some (byteUpd msr 3 0xfd (if Utils.to_bool val = false then 0x02 else 0x00))

def set_pindetect (val : PyVal) (msr : List ℕ) : Option (List ℕ) :=
  Option.some (byteUpd msr 3 0xfe (if Utils.to_bool val = false then 0x01 else 0x00))

/-- The `self.options` table of `Stc12Option` with each option's byte
offset and mask. -/
def table : List OptEntry :=
  [⟨"reset_pin_enabled", 0, 0x01, set_reset_pin_enabled⟩,
   ⟨"low_voltage_reset", 0, 0x40, set_low_voltage_detect⟩,
   ⟨"oscillator_stable_delay", 0, 0x30, set_osc_stable_delay⟩,
   ⟨"por_reset_delay", 1, 0x80, set_por_delay⟩,
   ⟨"clock_gain", 1, 0x40, set_clock_gain⟩,
   ⟨"clock_source", 1, 0x02, set_clock_source⟩,
   ⟨"watchdog_por_enabled", 2, 0x20, set_watchdog⟩,
   ⟨"watchdog_stop_idle", 2, 0x08, set_watchdog_idle⟩,
   ⟨"watchdog_prescale", 2, 0x07, set_watchdog_prescale⟩,
   ⟨"eeprom_erase_enabled", 3, 0x02, set_ee_erase⟩,
   ⟨"bsl_pindetect_enabled", 3, 0x01, set_pindetect⟩]

end Stc12Option

namespace Stc15AOption

/-- `Stc15AOption` setters; the MSR is a 13-byte `bytearray`. -/
def set_reset_pin_enabled (val : PyVal) (msr : List ℕ) : Option (List ℕ) :=
  Option.some (byteUpd msr 0 0xef (if Utils.to_bool val then 0x10 else 0x00))

def set_watchdog (val : PyVal) (msr : List ℕ) : Option (List ℕ) :=
  Option.some (byteUpd msr 2 0xdf (if Utils.to_bool val = false then 0x20 else 0x00))

def set_watchdog_idle (val : PyVal) (msr : List ℕ) : Option (List ℕ) :=
  Option.some (byteUpd msr 2 0xf7 (if Utils.to_bool val = false then 0x08 else 0x00))

def set_watchdog_prescale (val : PyVal) (msr : List ℕ) : Option (List ℕ) :=
  match Utils.to_int val with
  | Option.none => Option.none
  | Option.some n =>
    if n = 2 then Option.some (byteUpd msr 2 0xf8 0)
    else if n = 4 then Option.some (byteUpd msr 2 0xf8 1)
    else if n = 8 then Option.some (byteUpd msr 2 0xf8 2)
    else if n = 16 then Option.some (byteUpd msr 2 0xf8 3)
    else if n = 32 then Option.some (byteUpd msr 2 0xf8 4)
    else if n = 64 then Option.some (byteUpd msr 2 0xf8 5)
    else if n = 128 then Option.some (byteUpd msr 2 0xf8 6)
    else if n = 256 then Option.some (byteUpd msr 2 0xf8 7)
    else Option.none

def set_lvrs (val : PyVal) (msr : List ℕ) : Option (List ℕ) :=
  Option.some (byteUpd msr 1 0xbf (if Utils.to_bool val then 0x40 else 0x00))

def set_eeprom_lvd (val : PyVal) (msr : List ℕ) : Option (List ℕ) :=
  Option.some (byteUpd msr 1 0x7f (if Utils.to_bool val then 0x80 else 0x00))

/-- `if val not in range(0, 8): raise`. -/
def set_low_voltage (val : PyVal) (msr : List ℕ) : Option (List ℕ) :=
  match Utils.to_int val with
  | Option.none => Option.none
  | Option.some n =>
    if 0 ≤ n ∧ n < 8 then Option.some (byteUpd msr 1 0xf8 n.toNat) else Option.none

def set_ee_erase (val : PyVal) (msr : List ℕ) : Option (List ℕ) :=
  Option.some (byteUpd msr 12 0xfd (if Utils.to_bool val = false then 0x02 else 0x00))

def set_pindetect (val : PyVal) (msr : List ℕ) : Option (List ℕ) :=
  Option.some (byteUpd msr 12 0xfe (if Utils.to_bool val = false then 0x01 else 0x00))

/-- The `self.options` table of `Stc15AOption` with each option's byte
offset and mask. -/
def table : List OptEntry :=
  [⟨"reset_pin_enabled", 0, 0x10, set_reset_pin_enabled⟩,
   ⟨"watchdog_por_enabled", 2, 0x20, set_watchdog⟩,
   ⟨"watchdog_stop_idle", 2, 0x08, set_watchdog_idle⟩,
   ⟨"watchdog_prescale", 2, 0x07, set_watchdog_prescale⟩,
   ⟨"low_voltage_reset", 1, 0x40, set_lvrs⟩,
   ⟨"low_voltage_threshold", 1, 0x07, set_low_voltage⟩,
   ⟨"eeprom_lvd_inhibit", 1, 0x80, set_eeprom_lvd⟩,
   ⟨"eeprom_erase_enabled", 12, 0x02, set_ee_erase⟩,
   ⟨"bsl_pindetect_enabled", 12, 0x01, set_pindetect⟩]

end Stc15AOption

namespace Stc15Option

/-- `Stc15Option` setters; the MSR is a 4-byte (5-byte with
`cpu_core_voltage`) `bytearray`. -/
def set_reset_pin_enabled (val : PyVal) (msr : List ℕ) : Option (List ℕ) :=
  Option.some (byteUpd msr 2 0xef (if Utils.to_bool val = false then 0x10 else 0x00))

def set_clock_source (val : PyVal) (msr : List ℕ) : Option (List ℕ) :=
  match val with
  | .str sv =>
    if sv = pyStr "internal" then Option.some (byteUpd msr 2 0xfe 1)
    else if sv = pyStr "external" then Option.some (byteUpd msr 2 0xfe 0)
    else Option.none
  | _ => Option.none

def set_clock_gain (val : PyVal) (msr : List ℕ) : Option (List ℕ) :=
  match val with
  | .str sv =>
    if sv = pyStr "low" then Option.some (byteUpd msr 2 0xfd (0 <<< 1))
    else if sv = pyStr "high" then Option.some (byteUpd msr 2 0xfd (1 <<< 1))
    else Option.none
  | _ => Option.none

def set_watchdog (val : PyVal) (msr : List ℕ) : Option (List ℕ) :=
  Option.some (byteUpd msr 0 0xdf (if Utils.to_bool val = false then 0x20 else 0x00))

def set_watchdog_idle (val : PyVal) (msr : List ℕ) : Option (List ℕ) :=
  Option.some (byteUpd msr 0 0xf7 (if Utils.to_bool val = false then 0x08 else 0x00))

def set_watchdog_prescale (val : PyVal) (msr : List ℕ) : Option (List ℕ) :=
  match Utils.to_int val with
  | Option.none => Option.none
  | Option.some n =>
    if n = 2 then Option.some (byteUpd msr 0 0xf8 0)
    else if n = 4 then Option.some (byteUpd msr 0 0xf8 1)
    else if n = 8 then Option.some (byteUpd msr 0 0xf8 2)
    else if n = 16 then Option.some (byteUpd msr 0 0xf8 3)
    else if n = 32 then Option.some (byteUpd msr 0 0xf8 4)
    else if n = 64 then Option.some (byteUpd msr 0 0xf8 5)
    else if n = 128 then Option.some (byteUpd msr 0 0xf8 6)
    else if n = 256 then Option.some (byteUpd msr 0 0xf8 7)
    else Option.none

def set_lvrs (val : PyVal) (msr : List ℕ) : Option (List ℕ) :=
  Option.some (byteUpd msr 1 0xbf (if Utils.to_bool val = false then 0x40 else 0x00))

def set_eeprom_lvd (val : PyVal) (msr : List ℕ) : Option (List ℕ) :=
  Option.some (byteUpd msr 1 0x7f (if Utils.to_bool val then 0x80 else 0x00))

def set_low_voltage (val : PyVal) (msr : List ℕ) : Option (List ℕ) :=
  match Utils.to_int val with
  | Option.none => Option.none
  | Option.some n =>
    if 0 ≤ n ∧ n < 8 then Option.some (byteUpd msr 1 0xf8 n.toNat) else Option.none

def set_ee_erase (val : PyVal) (msr : List ℕ) : Option (List ℕ) :=
  Option.some (byteUpd msr 3 0xfd (if Utils.to_bool val then 0x02 else 0x00))

def set_pindetect (val : PyVal) (msr : List ℕ) : Option (List ℕ) :=
  Option.some (byteUpd msr 3 0xfe (if Utils.to_bool val = false then 0x01 else 0x00))

def set_por_delay (val : PyVal) (msr : List ℕ) : Option (List ℕ) :=
  match val with
  | .str sv =>
    if sv = pyStr "short" then Option.some (byteUpd msr 2 0x7f (0 <<< 7))
    else if sv = pyStr "long" then Option.some (byteUpd msr 2 0x7f (1 <<< 7))
    else Option.none
  | _ => Option.none

/-- `get_p33_state` (the `rstout_por_state` option). -/
def get_p33_state (msr : List ℕ) : PyVal :=
  .str (if msr.getD 2 0 &&& 0x08 ≠ 0 then pyStr "high" else pyStr "low")

/-- `set_p33_state` pipes the value through `Utils.to_bool`, although the
option's values are the strings "high"/"low" that `get_p33_state` emits. -/
def set_p33_state (val : PyVal) (msr : List ℕ) : Option (List ℕ) :=
  Option.some (byteUpd msr 2 0xf7 (if Utils.to_bool val then 0x08 else 0x00))

def set_uart_passthrough (val : PyVal) (msr : List ℕ) : Option (List ℕ) :=
  Option.some (byteUpd msr 2 0xbf (if Utils.to_bool val then 0x40 else 0x00))

/-- `get_uart_pin_mode` (the `uart2_pin_mode` option). -/
def get_uart_pin_mode (msr : List ℕ) : PyVal :=
  .str (if msr.getD 2 0 &&& 0x20 ≠ 0 then pyStr "push-pull" else pyStr "normal")

/-- `set_uart_pin_mode` validates against `{"normal": 0, "push-pull": 1}`
but then ors in `0x20 if val else 0x00` — the truthiness of the *string*
`val`, not the looked-up code: any accepted value (both are non-empty
strings) sets the bit. -/
def set_uart_pin_mode (val : PyVal) (msr : List ℕ) : Option (List ℕ) :=
  match val with
  | .str sv =>
    if sv = pyStr "normal" ∨ sv = pyStr "push-pull" then
      Option.some (byteUpd msr 2 0xdf (if sv ≠ [] then 0x20 else 0x00))
    else Option.none
  | _ => Option.none

def set_core_voltage (val : PyVal) (msr : List ℕ) : Option (List ℕ) :=
  match val with
  | .str sv =>
    if sv = pyStr "low" then Option.some (msr.set 4 0xea)
    else if sv = pyStr "mid" then Option.some (msr.set 4 0xf7)
    else if sv = pyStr "high" then Option.some (msr.set 4 0xfd)
    else Option.none
  | _ => Option.none

/-- The `self.options` table of `Stc15Option` with each option's byte
offset and mask (`cpu_core_voltage` is registered when the MSR has more
than 4 bytes). -/
def table : List OptEntry :=
  [⟨"reset_pin_enabled", 2, 0x10, set_reset_pin_enabled⟩,
   ⟨"clock_source", 2, 0x01, set_clock_source⟩,
   ⟨"clock_gain", 2, 0x02, set_clock_gain⟩,
   ⟨"watchdog_por_enabled", 0, 0x20, set_watchdog⟩,
   ⟨"watchdog_stop_idle", 0, 0x08, set_watchdog_idle⟩,
   ⟨"watchdog_prescale", 0, 0x07, set_watchdog_prescale⟩,
   ⟨"low_voltage_reset", 1, 0x40, set_lvrs⟩,
   ⟨"low_voltage_threshold", 1, 0x07, set_low_voltage⟩,
   ⟨"eeprom_lvd_inhibit", 1, 0x80, set_eeprom_lvd⟩,
   ⟨"eeprom_erase_enabled", 3, 0x02, set_ee_erase⟩,
   ⟨"bsl_pindetect_enabled", 3, 0x01, set_pindetect⟩,
   ⟨"por_reset_delay", 2, 0x80, set_por_delay⟩,
   ⟨"rstout_por_state", 2, 0x08, set_p33_state⟩,
   ⟨"uart2_passthrough", 2, 0x40, set_uart_passthrough⟩,
   ⟨"uart2_pin_mode", 2, 0x20, set_uart_pin_mode⟩,
   ⟨"cpu_core_voltage", 4, 0xff, set_core_voltage⟩]

end Stc15Option

namespace Stc8Option

/-- `Stc8Option` setters; the MSR is a 5-byte `bytearray`. -/
def set_reset_pin_enabled (val : PyVal) (msr : List ℕ) : Option (List ℕ) :=
  Option.some (byteUpd msr 2 0xef (if Utils.to_bool val = false then 0x10 else 0x00))

def set_clock_gain (val : PyVal) (msr : List ℕ) : Option (List ℕ) :=
  match val with
  | .str sv =>
    if sv = pyStr "low" then Option.some (byteUpd msr 1 0xfd (0 <<< 1))
    else if sv = pyStr "high" then Option.some (byteUpd msr 1 0xfd (1 <<< 1))
    else Option.none
  | _ => Option.none

def set_watchdog (val : PyVal) (msr : List ℕ) : Option (List ℕ) :=
  Option.some (byteUpd msr 3 0xdf (if Utils.to_bool val = false then 0x20 else 0x00))

def set_watchdog_idle (val : PyVal) (msr : List ℕ) : Option (List ℕ) :=
  Option.some (byteUpd msr 3 0xf7 (if Utils.to_bool val = false then 0x08 else 0x00))

def set_watchdog_prescale (val : PyVal) (msr : List ℕ) : Option (List ℕ) :=
  match Utils.to_int val with
  | Option.none => Option.none
  | Option.some n =>
    if n = 2 then Option.some (byteUpd msr 3 0xf8 0)
    else if n = 4 then Option.some (byteUpd msr 3 0xf8 1)
    else if n = 8 then Option.some (byteUpd msr 3 0xf8 2)
    else if n = 16 then Option.some (byteUpd msr 3 0xf8 3)
    else if n = 32 then Option.some (byteUpd msr 3 0xf8 4)
    else if n = 64 then Option.some (byteUpd msr 3 0xf8 5)
    else if n = 128 then Option.some (byteUpd msr 3 0xf8 6)
    else if n = 256 then Option.some (byteUpd msr 3 0xf8 7)
    else Option.none

def set_lvrs (val : PyVal) (msr : List ℕ) : Option (List ℕ) :=
  Option.some (byteUpd msr 2 0xbf (if Utils.to_bool val = false then 0x40 else 0x00))

/-- `if val not in range(0, 4): raise`; the stored bits are `3 - val`. -/
def set_low_voltage (val : PyVal) (msr : List ℕ) : Option (List ℕ) :=
  match Utils.to_int val with
  | Option.none => Option.none
  | Option.some n =>
    if 0 ≤ n ∧ n < 4 then Option.some (byteUpd msr 2 0xfc (3 - n).toNat) else Option.none

def set_ee_erase (val : PyVal) (msr : List ℕ) : Option (List ℕ) :=
  Option.some (byteUpd msr 0 0xfd (if Utils.to_bool val then 0x02 else 0x00))

def set_pindetect (val : PyVal) (msr : List ℕ) : Option (List ℕ) :=
  Option.some (byteUpd msr 0 0xfe (if Utils.to_bool val = false then 0x01 else 0x00))

def set_por_delay (val : PyVal) (msr : List ℕ) : Option (List ℕ) :=
  match val with
  | .str sv =>
    if sv = pyStr "short" then Option.some (byteUpd msr 1 0x7f (0 <<< 7))
    else if sv = pyStr "long" then Option.some (byteUpd msr 1 0x7f (1 <<< 7))
    else Option.none
  | _ => Option.none

/-- `set_p20_state` (the `rstout_por_state` option) pipes its "high"/"low"
value through `Utils.to_bool`, like `Stc15Option.set_p33_state`. -/
def set_p20_state (val : PyVal) (msr : List ℕ) : Option (List ℕ) :=
  Option.some (byteUpd msr 1 0xf7 (if Utils.to_bool val then 0x08 else 0x00))

def set_uart1_remap (val : PyVal) (msr : List ℕ) : Option (List ℕ) :=
  Option.some (byteUpd msr 1 0xbf (if Utils.to_bool val then 0x40 else 0x00))

def set_uart_passthrough (val : PyVal) (msr : List ℕ) : Option (List ℕ) :=
  Option.some (byteUpd msr 1 0xef (if Utils.to_bool val then 0x10 else 0x00))

/-- Unlike the `Stc15Option` sibling, this setter correctly uses the
looked-up `modes[val]` code. -/
def set_uart_pin_mode (val : PyVal) (msr : List ℕ) : Option (List ℕ) :=
  match val with
  | .str sv =>
    if sv = pyStr "normal" then Option.some (byteUpd msr 1 0xdf 0x00)
    else if sv = pyStr "push-pull" then Option.some (byteUpd msr 1 0xdf 0x20)
    else Option.none
  | _ => Option.none

def set_epwm_pp (val : PyVal) (msr : List ℕ) : Option (List ℕ) :=
  Option.some (byteUpd msr 1 0xfb (if Utils.to_bool val then 0x04 else 0x00))

/-- `program_eeprom_split`: 512..65024 in steps of 512, stored as
`num_val // 256` in byte 4. -/
def set_flash_split (val : PyVal) (msr : List ℕ) : Option (List ℕ) :=
  match Utils.to_int val with
  | Option.none => Option.none
  | Option.some n =>
    if n < 512 ∨ n > 65024 ∨ n % 512 ≠ 0 then Option.none
    else Option.some (msr.set 4 (n / 256).toNat)

/-- The `self.options` table of `Stc8Option` with each option's byte offset
and mask. -/
def table : List OptEntry :=
  [⟨"reset_pin_enabled", 2, 0x10, set_reset_pin_enabled⟩,
   ⟨"clock_gain", 1, 0x02, set_clock_gain⟩,
   ⟨"watchdog_por_enabled", 3, 0x20, set_watchdog⟩,
   ⟨"watchdog_stop_idle", 3, 0x08, set_watchdog_idle⟩,
   ⟨"watchdog_prescale", 3, 0x07, set_watchdog_prescale⟩,
   ⟨"low_voltage_reset", 2, 0x40, set_lvrs⟩,
   ⟨"low_voltage_threshold", 2, 0x03, set_low_voltage⟩,
   ⟨"eeprom_erase_enabled", 0, 0x02, set_ee_erase⟩,
   ⟨"bsl_pindetect_enabled", 0, 0x01, set_pindetect⟩,
   ⟨"por_reset_delay", 1, 0x80, set_por_delay⟩,
   ⟨"rstout_por_state", 1, 0x08, set_p20_state⟩,
   ⟨"uart1_remap", 1, 0x40, set_uart1_remap⟩,
   ⟨"uart2_passthrough", 1, 0x10, set_uart_passthrough⟩,
   ⟨"uart2_pin_mode", 1, 0x20, set_uart_pin_mode⟩,
   ⟨"epwm_open_drain", 1, 0x04, set_epwm_pp⟩,
   ⟨"program_eeprom_split", 4, 0xff, set_flash_split⟩]

end Stc8Option

theorem exists_byteUpd {msr msr' : List ℕ} {i c s : ℕ}
    (hset : Option.some (byteUpd msr i c s) = Option.some msr')
    (h1 : s &&& c = 0) (h2 : s < 256) :
    ∃ t, t &&& c = 0 ∧ t < 256 ∧ msr' = byteUpd msr i c t :=
  ⟨s, h1, h2, (Option.some.inj hset).symm⟩

theorem exists_natUpd {m m' c s : ℕ}
    (hset : Option.some (natUpd m c s) = Option.some m')
    (h1 : s &&& c = 0) (h2 : s < 256) :
    ∃ t, t &&& c = 0 ∧ t < 256 ∧ m' = natUpd m c t :=
  ⟨s, h1, h2, (Option.some.inj hset).symm⟩

theorem exists_setByte {msr msr' : List ℕ} {i w : ℕ}
    (hset : Option.some (msr.set i w) = Option.some msr') (hw : w < 256) :
    ∃ u, u < 256 ∧ msr' = msr.set i u :=
  ⟨w, hw, (Option.some.inj hset).symm⟩

theorem SetterMasked_setByte (idx : ℕ) (set : PyVal → List ℕ → Option (List ℕ))
    (h : ∀ v msr msr', set v msr = Option.some msr' → ∃ w, w < 256 ∧ msr' = msr.set idx w) :
    SetterMasked idx 255 set := by
  intro v msr msr' hset
  obtain ⟨w, hw, rfl⟩ := h v msr msr' hset
  have h255 : (255 ^^^ (255:ℕ)) = 0 := by decide
  refine ⟨List.length_set .., ?_, ?_, ?_⟩
  · intro j hj
    simp only [List.getD, List.get?_eq_getElem?]
    rw [List.getElem?_set_ne (Ne.symm hj)]
  · rw [h255]
    simp
  · intro hb
    by_cases hi : idx < msr.length
    · simp only [List.getD, List.get?_eq_getElem?]
      rw [List.getElem?_set_self (by simpa using hi)]
      simpa using hw
    · rw [List.set_eq_of_length_le (le_of_not_lt hi)]
      exact hb

theorem lt8_and_f8 : ∀ m : ℕ, m < 8 → m &&& 0xf8 = 0 := by decide

theorem lt4_and_fc : ∀ m : ℕ, m < 4 → m &&& 0xfc = 0 := by decide

theorem stc89_table_masked :
    ∀ e ∈ Stc89Option.options_masks, Setter89Masked e.2.1 e.2.2 := by
  intro e he
  simp only [Stc89Option.options_masks, List.mem_cons, List.not_mem_nil, or_false] at he
  rcases he with rfl | rfl | rfl | rfl | rfl | rfl | rfl
  · refine Setter89Masked_natUpd _ 0xfe _ (by decide) (by decide) ?_
    intro v m m' hset
    exact exists_natUpd hset (by split_ifs <;> decide) (by split_ifs <;> decide)
  · refine Setter89Masked_natUpd _ 0xfb _ (by decide) (by decide) ?_
    intro v m m' hset
    exact exists_natUpd hset (by split_ifs <;> decide) (by split_ifs <;> decide)
  · refine Setter89Masked_natUpd _ 0xf7 _ (by decide) (by decide) ?_
    intro v m m' hset
    exact exists_natUpd hset (by split_ifs <;> decide) (by split_ifs <;> decide)
  · refine Setter89Masked_natUpd _ 0xef _ (by decide) (by decide) ?_
    intro v m m' hset
    rcases v with _ | b | n | sv
    · exact Option.noConfusion hset
    · exact Option.noConfusion hset
    · exact Option.noConfusion hset
    · simp only [Stc89Option.set_clock_gain] at hset
      split_ifs at hset <;>
        first
          | exact exists_natUpd hset (by decide) (by decide)
          | exact Option.noConfusion hset
  · refine Setter89Masked_natUpd _ 0xdf _ (by decide) (by decide) ?_
    intro v m m' hset
    exact exists_natUpd hset (by split_ifs <;> decide) (by split_ifs <;> decide)
  · refine Setter89Masked_natUpd _ 0xbf _ (by decide) (by decide) ?_
    intro v m m' hset
    exact exists_natUpd hset (by split_ifs <;> decide) (by split_ifs <;> decide)
  · refine Setter89Masked_natUpd _ 0x7f _ (by decide) (by decide) ?_
    intro v m m' hset
    exact exists_natUpd hset (by split_ifs <;> decide) (by split_ifs <;> decide)

theorem stc12a_table_masked : TableMasked Stc12AOption.table := by
  intro e he
  simp only [Stc12AOption.table, List.mem_cons, List.not_mem_nil, or_false] at he
  rcases he with rfl | rfl | rfl | rfl | rfl | rfl | rfl
  · refine SetterMasked_byteUpd _ _ 0xbf _ (by decide) (by decide) ?_
    intro v msr msr' hset
    rcases v with _ | b | n | sv
    · exact Option.noConfusion hset
    · exact Option.noConfusion hset
    · exact Option.noConfusion hset
    · simp only [Stc12AOption.set_low_voltage_detect] at hset
      split_ifs at hset <;>
        first
          | exact exists_byteUpd hset (by first | decide | (split_ifs <;> decide))
              (by first | decide | (split_ifs <;> decide))
          | exact Option.noConfusion hset
  · refine SetterMasked_byteUpd _ _ 0xfd _ (by decide) (by decide) ?_
    intro v msr msr' hset
    rcases v with _ | b | n | sv
    · exact Option.noConfusion hset
    · exact Option.noConfusion hset
    · exact Option.noConfusion hset
    · simp only [Stc12AOption.set_clock_source] at hset
      split_ifs at hset <;>
        first
          | exact exists_byteUpd hset (by first | decide | (split_ifs <;> decide))
              (by first | decide | (split_ifs <;> decide))
          | exact Option.noConfusion hset
  · refine SetterMasked_byteUpd _ _ 0xdf _ (by decide) (by decide) ?_
    intro v msr msr' hset
    exact exists_byteUpd hset (by split_ifs <;> decide) (by split_ifs <;> decide)
  · refine SetterMasked_byteUpd _ _ 0xf7 _ (by decide) (by decide) ?_
    intro v msr msr' hset
    exact exists_byteUpd hset (by split_ifs <;> decide) (by split_ifs <;> decide)
  · refine SetterMasked_byteUpd _ _ 0xf8 _ (by decide) (by decide) ?_
    intro v msr msr' hset
    simp only [Stc12AOption.set_watchdog_prescale] at hset
    rcases hti : Utils.to_int v with _ | n
    · rw [hti] at hset
      exact Option.noConfusion hset
    · simp only [hti] at hset
      split_ifs at hset <;>
        first
          | exact exists_byteUpd hset (by decide) (by decide)
          | exact Option.noConfusion hset
  · refine SetterMasked_byteUpd _ _ 0xfd _ (by decide) (by decide) ?_
    intro v msr msr' hset
    exact exists_byteUpd hset (by split_ifs <;> decide) (by split_ifs <;> decide)
  · refine SetterMasked_byteUpd _ _ 0xfe _ (by decide) (by decide) ?_
    intro v msr msr' hset
    exact exists_byteUpd hset (by split_ifs <;> decide) (by split_ifs <;> decide)

theorem stc12_table_masked : TableMasked Stc12Option.table := by
  intro e he
  simp only [Stc12Option.table, List.mem_cons, List.not_mem_nil, or_false] at he
  rcases he with rfl | rfl | rfl | rfl | rfl | rfl | rfl | rfl | rfl | rfl | rfl
  · refine SetterMasked_byteUpd _ _ 0xfe _ (by decide) (by decide) ?_
    intro v msr msr' hset
    exact exists_byteUpd hset (by split_ifs <;> decide) (by split_ifs <;> decide)
  · refine SetterMasked_byteUpd _ _ 0xbf _ (by decide) (by decide) ?_
    intro v msr msr' hset
    exact exists_byteUpd hset (by split_ifs <;> decide) (by split_ifs <;> decide)
  · refine SetterMasked_byteUpd _ _ 0xcf _ (by decide) (by decide) ?_
    intro v msr msr' hset
    simp only [Stc12Option.set_osc_stable_delay] at hset
    rcases hti : Utils.to_int v with _ | n
    · rw [hti] at hset
      exact Option.noConfusion hset
    · simp only [hti] at hset
      split_ifs at hset <;>
        first
          | exact exists_byteUpd hset (by decide) (by decide)
          | exact Option.noConfusion hset
  · refine SetterMasked_byteUpd _ _ 0x7f _ (by decide) (by decide) ?_
    intro v msr msr' hset
    rcases v with _ | b | n | sv
    · exact Option.noConfusion hset
    · exact Option.noConfusion hset
    · exact Option.noConfusion hset
    · simp only [Stc12Option.set_por_delay] at hset
      split_ifs at hset <;>
        first
          | exact exists_byteUpd hset (by first | decide | (split_ifs <;> decide))
              (by first | decide | (split_ifs <;> decide))
          | exact Option.noConfusion hset
  · refine SetterMasked_byteUpd _ _ 0xbf _ (by decide) (by decide) ?_
    intro v msr msr' hset
    rcases v with _ | b | n | sv
    · exact Option.noConfusion hset
    · exact Option.noConfusion hset
    · exact Option.noConfusion hset
    · simp only [Stc12Option.set_clock_gain] at hset
      split_ifs at hset <;>
        first
          | exact exists_byteUpd hset (by first | decide | (split_ifs <;> decide))
              (by first | decide | (split_ifs <;> decide))
          | exact Option.noConfusion hset
  · refine SetterMasked_byteUpd _ _ 0xfd _ (by decide) (by decide) ?_
    intro v msr msr' hset
    rcases v with _ | b | n | sv
    · exact Option.noConfusion hset
    · exact Option.noConfusion hset
    · exact Option.noConfusion hset
    · simp only [Stc12Option.set_clock_source] at hset
      split_ifs at hset <;>
        first
          | exact exists_byteUpd hset (by first | decide | (split_ifs <;> decide))
              (by first | decide | (split_ifs <;> decide))
          | exact Option.noConfusion hset
  · refine SetterMasked_byteUpd _ _ 0xdf _ (by decide) (by decide) ?_
    intro v msr msr' hset
    exact exists_byteUpd hset (by split_ifs <;> decide) (by split_ifs <;> decide)
  · refine SetterMasked_byteUpd _ _ 0xf7 _ (by decide) (by decide) ?_
    intro v msr msr' hset
    exact exists_byteUpd hset (by split_ifs <;> decide) (by split_ifs <;> decide)
  · refine SetterMasked_byteUpd _ _ 0xf8 _ (by decide) (by decide) ?_
    intro v msr msr' hset
    simp only [Stc12Option.set_watchdog_prescale] at hset
    rcases hti : Utils.to_int v with _ | n
    · rw [hti] at hset
      exact Option.noConfusion hset
    · simp only [hti] at hset
      split_ifs at hset <;>
        first
          | exact exists_byteUpd hset (by decide) (by decide)
          | exact Option.noConfusion hset
  · refine SetterMasked_byteUpd _ _ 0xfd _ (by decide) (by decide) ?_
    intro v msr msr' hset
    exact exists_byteUpd hset (by split_ifs <;> decide) (by split_ifs <;> decide)
  · refine SetterMasked_byteUpd _ _ 0xfe _ (by decide) (by decide) ?_
    intro v msr msr' hset
    exact exists_byteUpd hset (by split_ifs <;> decide) (by split_ifs <;> decide)

theorem stc15a_table_masked : TableMasked Stc15AOption.table := by
  intro e he
  simp only [Stc15AOption.table, List.mem_cons, List.not_mem_nil, or_false] at he
  rcases he with rfl | rfl | rfl | rfl | rfl | rfl | rfl | rfl | rfl
  · refine SetterMasked_byteUpd _ _ 0xef _ (by decide) (by decide) ?_
    intro v msr msr' hset
    exact exists_byteUpd hset (by split_ifs <;> decide) (by split_ifs <;> decide)
  · refine SetterMasked_byteUpd _ _ 0xdf _ (by decide) (by decide) ?_
    intro v msr msr' hset
    exact exists_byteUpd hset (by split_ifs <;> decide) (by split_ifs <;> decide)
  · refine SetterMasked_byteUpd _ _ 0xf7 _ (by decide) (by decide) ?_
    intro v msr msr' hset
    exact exists_byteUpd hset (by split_ifs <;> decide) (by split_ifs <;> decide)
  · refine SetterMasked_byteUpd _ _ 0xf8 _ (by decide) (by decide) ?_
    intro v msr msr' hset
    simp only [Stc15AOption.set_watchdog_prescale] at hset
    rcases hti : Utils.to_int v with _ | n
    · rw [hti] at hset
      exact Option.noConfusion hset
    · simp only [hti] at hset
      split_ifs at hset <;>
        first
          | exact exists_byteUpd hset (by decide) (by decide)
          | exact Option.noConfusion hset
  · refine SetterMasked_byteUpd _ _ 0xbf _ (by decide) (by decide) ?_
    intro v msr msr' hset
    exact exists_byteUpd hset (by split_ifs <;> decide) (by split_ifs <;> decide)
  · refine SetterMasked_byteUpd _ _ 0xf8 _ (by decide) (by decide) ?_
    intro v msr msr' hset
    simp only [Stc15AOption.set_low_voltage] at hset
    rcases hti : Utils.to_int v with _ | n
    · rw [hti] at hset
      exact Option.noConfusion hset
    · simp only [hti] at hset
      split_ifs at hset with h
      exact exists_byteUpd hset (lt8_and_f8 _ (by omega)) (by omega)
  · refine SetterMasked_byteUpd _ _ 0x7f _ (by decide) (by decide) ?_
    intro v msr msr' hset
    exact exists_byteUpd hset (by split_ifs <;> decide) (by split_ifs <;> decide)
  · refine SetterMasked_byteUpd _ _ 0xfd _ (by decide) (by decide) ?_
    intro v msr msr' hset
    exact exists_byteUpd hset (by split_ifs <;> decide) (by split_ifs <;> decide)
  · refine SetterMasked_byteUpd _ _ 0xfe _ (by decide) (by decide) ?_
    intro v msr msr' hset
    exact exists_byteUpd hset (by split_ifs <;> decide) (by split_ifs <;> decide)

theorem stc15_table_masked : TableMasked Stc15Option.table := by
  intro e he
  simp only [Stc15Option.table, List.mem_cons, List.not_mem_nil, or_false] at he
  rcases he with rfl | rfl | rfl | rfl | rfl | rfl | rfl | rfl | rfl | rfl | rfl | rfl | rfl | rfl | rfl | rfl
  · refine SetterMasked_byteUpd _ _ 0xef _ (by decide) (by decide) ?_
    intro v msr msr' hset
    exact exists_byteUpd hset (by split_ifs <;> decide) (by split_ifs <;> decide)
  · refine SetterMasked_byteUpd _ _ 0xfe _ (by decide) (by decide) ?_
    intro v msr msr' hset
    rcases v with _ | b | n | sv
    · exact Option.noConfusion hset
    · exact Option.noConfusion hset
    · exact Option.noConfusion hset
    · simp only [Stc15Option.set_clock_source] at hset
      split_ifs at hset <;>
        first
          | exact exists_byteUpd hset (by first | decide | (split_ifs <;> decide))
              (by first | decide | (split_ifs <;> decide))
          | exact Option.noConfusion hset
  · refine SetterMasked_byteUpd _ _ 0xfd _ (by decide) (by decide) ?_
    intro v msr msr' hset
    rcases v with _ | b | n | sv
    · exact Option.noConfusion hset
    · exact Option.noConfusion hset
    · exact Option.noConfusion hset
    · simp only [Stc15Option.set_clock_gain] at hset
      split_ifs at hset <;>
        first
          | exact exists_byteUpd hset (by first | decide | (split_ifs <;> decide))
              (by first | decide | (split_ifs <;> decide))
          | exact Option.noConfusion hset
  · refine SetterMasked_byteUpd _ _ 0xdf _ (by decide) (by decide) ?_
    intro v msr msr' hset
    exact exists_byteUpd hset (by split_ifs <;> decide) (by split_ifs <;> decide)
  · refine SetterMasked_byteUpd _ _ 0xf7 _ (by decide) (by decide) ?_
    intro v msr msr' hset
    exact exists_byteUpd hset (by split_ifs <;> decide) (by split_ifs <;> decide)
  · refine SetterMasked_byteUpd _ _ 0xf8 _ (by decide) (by decide) ?_
    intro v msr msr' hset
    simp only [Stc15Option.set_watchdog_prescale] at hset
    rcases hti : Utils.to_int v with _ | n
    · rw [hti] at hset
      exact Option.noConfusion hset
    · simp only [hti] at hset
      split_ifs at hset <;>
        first
          | exact exists_byteUpd hset (by decide) (by decide)
          | exact Option.noConfusion hset
  · refine SetterMasked_byteUpd _ _ 0xbf _ (by decide) (by decide) ?_
    intro v msr msr' hset
    exact exists_byteUpd hset (by split_ifs <;> decide) (by split_ifs <;> decide)
  · refine SetterMasked_byteUpd _ _ 0xf8 _ (by decide) (by decide) ?_
    intro v msr msr' hset
    simp only [Stc15Option.set_low_voltage] at hset
    rcases hti : Utils.to_int v with _ | n
    · rw [hti] at hset
      exact Option.noConfusion hset
    · simp only [hti] at hset
      split_ifs at hset with h
      exact exists_byteUpd hset (lt8_and_f8 _ (by omega)) (by omega)
  · refine SetterMasked_byteUpd _ _ 0x7f _ (by decide) (by decide) ?_
    intro v msr msr' hset
    exact exists_byteUpd hset (by split_ifs <;> decide) (by split_ifs <;> decide)
  · refine SetterMasked_byteUpd _ _ 0xfd _ (by decide) (by decide) ?_
    intro v msr msr' hset
    exact exists_byteUpd hset (by split_ifs <;> decide) (by split_ifs <;> decide)
  · refine SetterMasked_byteUpd _ _ 0xfe _ (by decide) (by decide) ?_
    intro v msr msr' hset
    exact exists_byteUpd hset (by split_ifs <;> decide) (by split_ifs <;> decide)
  · refine SetterMasked_byteUpd _ _ 0x7f _ (by decide) (by decide) ?_
    intro v msr msr' hset
    rcases v with _ | b | n | sv
    · exact Option.noConfusion hset
    · exact Option.noConfusion hset
    · exact Option.noConfusion hset
    · simp only [Stc15Option.set_por_delay] at hset
      split_ifs at hset <;>
        first
          | exact exists_byteUpd hset (by first | decide | (split_ifs <;> decide))
              (by first | decide | (split_ifs <;> decide))
          | exact Option.noConfusion hset
  · refine SetterMasked_byteUpd _ _ 0xf7 _ (by decide) (by decide) ?_
    intro v msr msr' hset
    exact exists_byteUpd hset (by split_ifs <;> decide) (by split_ifs <;> decide)
  · refine SetterMasked_byteUpd _ _ 0xbf _ (by decide) (by decide) ?_
    intro v msr msr' hset
    exact exists_byteUpd hset (by split_ifs <;> decide) (by split_ifs <;> decide)
  · refine SetterMasked_byteUpd _ _ 0xdf _ (by decide) (by decide) ?_
    intro v msr msr' hset
    rcases v with _ | b | n | sv
    · exact Option.noConfusion hset
    · exact Option.noConfusion hset
    · exact Option.noConfusion hset
    · simp only [Stc15Option.set_uart_pin_mode] at hset
      split_ifs at hset <;>
        first
          | exact exists_byteUpd hset (by first | decide | (split_ifs <;> decide))
              (by first | decide | (split_ifs <;> decide))
          | exact Option.noConfusion hset
  · refine SetterMasked_setByte _ _ ?_
    intro v msr msr' hset
    rcases v with _ | b | n | sv
    · exact Option.noConfusion hset
    · exact Option.noConfusion hset
    · exact Option.noConfusion hset
    · simp only [Stc15Option.set_core_voltage] at hset
      split_ifs at hset <;>
        first
          | exact exists_setByte hset (by decide)
          | exact Option.noConfusion hset

theorem stc8_table_masked : TableMasked Stc8Option.table := by
  intro e he
  simp only [Stc8Option.table, List.mem_cons, List.not_mem_nil, or_false] at he
  rcases he with rfl | rfl | rfl | rfl | rfl | rfl | rfl | rfl | rfl | rfl | rfl | rfl | rfl | rfl | rfl | rfl
  · refine SetterMasked_byteUpd _ _ 0xef _ (by decide) (by decide) ?_
    intro v msr msr' hset
    exact exists_byteUpd hset (by split_ifs <;> decide) (by split_ifs <;> decide)
  · refine SetterMasked_byteUpd _ _ 0xfd _ (by decide) (by decide) ?_
    intro v msr msr' hset
    rcases v with _ | b | n | sv
    · exact Option.noConfusion hset
    · exact Option.noConfusion hset
    · exact Option.noConfusion hset
    · simp only [Stc8Option.set_clock_gain] at hset
      split_ifs at hset <;>
        first
          | exact exists_byteUpd hset (by first | decide | (split_ifs <;> decide))
              (by first | decide | (split_ifs <;> decide))
          | exact Option.noConfusion hset
  · refine SetterMasked_byteUpd _ _ 0xdf _ (by decide) (by decide) ?_
    intro v msr msr' hset
    exact exists_byteUpd hset (by split_ifs <;> decide) (by split_ifs <;> decide)
  · refine SetterMasked_byteUpd _ _ 0xf7 _ (by decide) (by decide) ?_
    intro v msr msr' hset
    exact exists_byteUpd hset (by split_ifs <;> decide) (by split_ifs <;> decide)
  · refine SetterMasked_byteUpd _ _ 0xf8 _ (by decide) (by decide) ?_
    intro v msr msr' hset
    simp only [Stc8Option.set_watchdog_prescale] at hset
    rcases hti : Utils.to_int v with _ | n
    · rw [hti] at hset
      exact Option.noConfusion hset
    · simp only [hti] at hset
      split_ifs at hset <;>
        first
          | exact exists_byteUpd hset (by decide) (by decide)
          | exact Option.noConfusion hset
  · refine SetterMasked_byteUpd _ _ 0xbf _ (by decide) (by decide) ?_
    intro v msr msr' hset
    exact exists_byteUpd hset (by split_ifs <;> decide) (by split_ifs <;> decide)
  · refine SetterMasked_byteUpd _ _ 0xfc _ (by decide) (by decide) ?_
    intro v msr msr' hset
    simp only [Stc8Option.set_low_voltage] at hset
    rcases hti : Utils.to_int v with _ | n
    · rw [hti] at hset
      exact Option.noConfusion hset
    · simp only [hti] at hset
      split_ifs at hset with h
      exact exists_byteUpd hset (lt4_and_fc _ (by omega)) (by omega)
  · refine SetterMasked_byteUpd _ _ 0xfd _ (by decide) (by decide) ?_
    intro v msr msr' hset
    exact exists_byteUpd hset (by split_ifs <;> decide) (by split_ifs <;> decide)
  · refine SetterMasked_byteUpd _ _ 0xfe _ (by decide) (by decide) ?_
    intro v msr msr' hset
    exact exists_byteUpd hset (by split_ifs <;> decide) (by split_ifs <;> decide)
  · refine SetterMasked_byteUpd _ _ 0x7f _ (by decide) (by decide) ?_
    intro v msr msr' hset
    rcases v with _ | b | n | sv
    · exact Option.noConfusion hset
    · exact Option.noConfusion hset
    · exact Option.noConfusion hset
    · simp only [Stc8Option.set_por_delay] at hset
      split_ifs at hset <;>
        first
          | exact exists_byteUpd hset (by first | decide | (split_ifs <;> decide))
              (by first | decide | (split_ifs <;> decide))
          | exact Option.noConfusion hset
  · refine SetterMasked_byteUpd _ _ 0xf7 _ (by decide) (by decide) ?_
    intro v msr msr' hset
    exact exists_byteUpd hset (by split_ifs <;> decide) (by split_ifs <;> decide)
  · refine SetterMasked_byteUpd _ _ 0xbf _ (by decide) (by decide) ?_
    intro v msr msr' hset
    exact exists_byteUpd hset (by split_ifs <;> decide) (by split_ifs <;> decide)
  · refine SetterMasked_byteUpd _ _ 0xef _ (by decide) (by decide) ?_
    intro v msr msr' hset
    exact exists_byteUpd hset (by split_ifs <;> decide) (by split_ifs <;> decide)
  · refine SetterMasked_byteUpd _ _ 0xdf _ (by decide) (by decide) ?_
    intro v msr msr' hset
    rcases v with _ | b | n | sv
    · exact Option.noConfusion hset
    · exact Option.noConfusion hset
    · exact Option.noConfusion hset
    · simp only [Stc8Option.set_uart_pin_mode] at hset
      split_ifs at hset <;>
        first
          | exact exists_byteUpd hset (by first | decide | (split_ifs <;> decide))
              (by first | decide | (split_ifs <;> decide))
          | exact Option.noConfusion hset
  · refine SetterMasked_byteUpd _ _ 0xfb _ (by decide) (by decide) ?_
    intro v msr msr' hset
    exact exists_byteUpd hset (by split_ifs <;> decide) (by split_ifs <;> decide)
  · refine SetterMasked_setByte _ _ ?_
    intro v msr msr' hset
    simp only [Stc8Option.set_flash_split] at hset
    rcases hti : Utils.to_int v with _ | n
    · rw [hti] at hset
      exact Option.noConfusion hset
    · simp only [hti] at hset
      split_ifs at hset with h
      exact exists_setByte hset (by push_neg at h; omega)

/-- C7: for every option codec, every recognized option name and every legal
value, the setter changes only the bits covered by that option's byte offset
and mask (all other bytes and the unmasked bits of its own byte are
unchanged, and byte values stay bytes), and `get_msr` serializes the MSR
bytes unchanged. -/
theorem option_set_changes_only_masked_bits :
    (∀ e ∈ Stc89Option.options_masks, Setter89Masked e.2.1 e.2.2) ∧
    TableMasked Stc12AOption.table ∧
    TableMasked Stc12Option.table ∧
    TableMasked Stc15AOption.table ∧
    TableMasked Stc15Option.table ∧
    TableMasked Stc8Option.table ∧
    (∀ msr : List ℕ, BaseOption.get_msr msr = msr) :=
  ⟨stc89_table_masked, stc12a_table_masked, stc12_table_masked,
   stc15a_table_masked, stc15_table_masked, stc8_table_masked,
   fun _ => rfl⟩

/-- C7 witness: the `uart2_pin_mode` setter of the `Stc15` codec applied to
`"push-pull"` on the MSR `[1, 2, 3, 4]` flips only bit `0x20` of byte 2. -/
theorem option_set_changes_only_masked_bits_witness :
    Stc15Option.set_uart_pin_mode (.str (pyStr "push-pull")) [1, 2, 3, 4] =
      Option.some [1, 2, 35, 4] ∧
    ([1, 2, 35, 4] : List ℕ).getD 3 0 = ([1, 2, 3, 4] : List ℕ).getD 3 0 ∧
    ([1, 2, 35, 4] : List ℕ).getD 2 0 &&& (255 ^^^ 0x20) =
      ([1, 2, 3, 4] : List ℕ).getD 2 0 &&& (255 ^^^ 0x20) := by
  have H := option_set_changes_only_masked_bits
  have He : SetterMasked 2 0x20 Stc15Option.set_uart_pin_mode :=
    H.2.2.2.2.1 ⟨"uart2_pin_mode", 2, 0x20, Stc15Option.set_uart_pin_mode⟩
      (by simp [Stc15Option.table])
  have hres := He (.str (pyStr "push-pull")) [1, 2, 3, 4] [1, 2, 35, 4] (by rfl)
  exact ⟨by rfl, hres.2.1 3 (by decide), hres.2.2.1⟩

/-- C1: the set-then-get round-trip fails on the `Stc15` codec.
`set_uart_pin_mode "normal"` ors in the truthiness of the *string* instead
of the looked-up mode code, so reading back yields `"push-pull"`; and
`set_p33_state "high"` pipes `"high"` through `Utils.to_bool` (which is
`False` for it), so reading back yields `"low"`.  Starting MSR: all zero. -/
theorem stc15_option_set_get_roundtrip_bug :
    (Stc15Option.set_uart_pin_mode (.str (pyStr "normal")) [0, 0, 0, 0]).map
        Stc15Option.get_uart_pin_mode = Option.some (.str (pyStr "push-pull")) ∧
    (Stc15Option.set_uart_pin_mode (.str (pyStr "normal")) [0, 0, 0, 0]).map
        Stc15Option.get_uart_pin_mode ≠ Option.some (.str (pyStr "normal")) ∧
    (Stc15Option.set_p33_state (.str (pyStr "high")) [0, 0, 0, 0]).map
        Stc15Option.get_p33_state = Option.some (.str (pyStr "low")) ∧
    (Stc15Option.set_p33_state (.str (pyStr "high")) [0, 0, 0, 0]).map
        Stc15Option.get_p33_state ≠ Option.some (.str (pyStr "high")) := by
  refine ⟨by decide, by decide, by decide, by decide⟩

/-! ## STC15A trimming handshake (protocols.py, `Stc15AProtocol.handshake`) -/

namespace Stc15AProtocol

/-- The "determine programming speed trim value" step of
`Stc15AProtocol.handshake`: unpack the `>HH` pairs at `response[28:32]` and
`response[32:36]` and interpolate
`m = (target_trim_b - target_trim_a) / (target_count_b - target_count_a)`;
`program_trim = round(m * program_count + n)`.  The division has no guard:
equal counters raise `ZeroDivisionError` (`PyErr.zeroDivision` here), which
is neither an `StcFramingException` nor an `StcProtocolException`.  (The
second-round interpolation at `response[12:28]` and
`Stc15Protocol.choose_range` divide the same way.) -/
def program_trim (response : List ℕ) (program_count : ℤ) : Except PyErr ℤ :=
  let target_trim_a : ℤ := response.getD 28 0 * 256 + response.getD 29 0
  let target_count_a : ℤ := response.getD 30 0 * 256 + response.getD 31 0
  let target_trim_b : ℤ := response.getD 32 0 * 256 + response.getD 33 0
  let target_count_b : ℤ := response.getD 34 0 * 256 + response.getD 35 0
  if target_count_b - target_count_a = 0 then .error .zeroDivision
  else
    let m : ℚ := (target_trim_b - target_trim_a) / (target_count_b - target_count_a)
    let n : ℚ := target_trim_a - m * target_count_a
    .ok (roundHalfEven (m * program_count + n))

/-- A challenge response whose two bracketing calibration counters are both
5: first byte is the expected `0x65` magic, bytes 28..35 are
`trim_a = 1, count_a = 5, trim_b = 2, count_b = 5`. -/
def equal_count_response : List ℕ :=
  [0x65] ++ List.replicate 27 0 ++ [0, 1, 0, 5, 0, 2, 0, 5]

end Stc15AProtocol

/-- C9: there is a well-framed, checksum-valid challenge response (here the
exact stream of an MCU-direction frame, accepted by the inherited
`Stc12Protocol.read_packet`, whose payload carries the expected `0x65`
magic) in which the two bracketing counters are equal, and on it the
interpolation step of `Stc15AProtocol.handshake` divides by zero —
an uncaught `ZeroDivisionError` rather than a framing or protocol error. -/
theorem stc15a_trim_zero_division :
    Stc12Protocol.read_packet
        (Stc12Protocol.write_packet_mcu Stc15AProtocol.equal_count_response) =
      .ok Stc15AProtocol.equal_count_response ∧
    Stc15AProtocol.equal_count_response.getD 0 0 = 0x65 ∧
    Stc15AProtocol.equal_count_response.length = 36 ∧
    Stc15AProtocol.program_trim Stc15AProtocol.equal_count_response 1000 =
      .error .zeroDivision :=
  ⟨rfl, rfl, rfl, rfl⟩
